import Mathlib

/-!
Shallow embedding of the `FluidSimulator` engine (fluid-sim.js) and of the
replay machinery (export-manager.js) of the FluidTextureSim repository.

JavaScript numbers are modelled as rationals (`ℚ`); the transcendental
functions of the host `Math` object (`sin`, `cos`, `exp`, `sqrt`, `pow`)
are abstracted as a structure `JsMath` of functions together with the
analytic facts the engine relies on (boundedness of sine and cosine,
nonnegativity of `exp`, `sqrt` and `pow` on nonnegative bases).  The
engine's own pseudo-random generator `random()` is embedded faithfully as
`frac (sin seed * 10000)` with the incrementing integer seed.  The one
genuinely non-deterministic input, `Math.random()` used for the noise
offset in the constructor and in `reset()`, is passed in explicitly as an
`entropy` argument in `[0,1)`.

Canvas drawing (the persistent surface texture, mask overlay, rendering)
is out of scope per the specification and has no feedback into the
simulation state, so it is not modelled; the `wetMap`, which does feed
back into wall-mode physics, is modelled in full.
-/

namespace FluidSim

/-- Abstraction of the host JavaScript `Math` library: the transcendental
functions used by the engine, together with the analytic facts about them
that the engine's numeric behaviour relies on. -/
structure JsMath where
  sin : ℚ → ℚ
  cos : ℚ → ℚ
  exp : ℚ → ℚ
  sqrt : ℚ → ℚ
  pow : ℚ → ℚ → ℚ
  sin_mem : ∀ x, -1 ≤ sin x ∧ sin x ≤ 1
  cos_mem : ∀ x, -1 ≤ cos x ∧ cos x ≤ 1
  exp_nonneg : ∀ x, 0 ≤ exp x
  sqrt_nonneg : ∀ x, 0 ≤ sqrt x
  sqrt_pos : ∀ x, 0 < x → 0 < sqrt x
  pow_nonneg : ∀ x y, 0 ≤ x → 0 ≤ pow x y

/-- The value of the JavaScript constant `Math.PI`: the IEEE-754 double
nearest to pi. -/
def jsPI : ℚ := 884279719003555 / 281474976710656

/-- Fractional part, `x - Math.floor(x)`. -/
def frac (q : ℚ) : ℚ := q - ⌊q⌋

/-- JavaScript truncation (used by the `%` operator, sign of dividend). -/
def jsTrunc (q : ℚ) : ℤ := if 0 ≤ q then ⌊q⌋ else ⌈q⌉

/-- The JavaScript remainder operator `a % b`. -/
def jsMod (a b : ℚ) : ℚ := a - b * (jsTrunc (a / b) : ℚ)

/-- The engine PRNG: `random()` returns `frac (Math.sin(seed++) * 10000)`
and the advanced seed. -/
def jsRandom (M : JsMath) (seed : ℤ) : ℚ × ℤ :=
  let x := M.sin (seed : ℚ) * 10000
  (frac x, seed + 1)

/-- `noise(x, y)` of the engine (the second, improved variant):
`frac (sin (x*12.9898 + y*78.233 + noiseOffset) * 43758.5453)`. -/
def noise (M : JsMath) (noiseOffset x y : ℚ) : ℚ :=
  frac (M.sin (x * mkRat 129898 10000 + y * mkRat 78233 1000 + noiseOffset)
    * mkRat 437585453 10000)

/-- Loop body of `fbm`: octaves countdown with the running position,
amplitude, frequency and accumulator. -/
def fbmGo (M : JsMath) (noiseOffset randomFreq : ℚ) :
    ℕ → ℚ → ℚ → ℚ → ℚ → ℚ → ℚ
  | 0, _, _, _, _, t => t
  | n + 1, x, y, amp, freq, t =>
    let nv := M.sin (x * freq + noiseOffset) * M.cos (y * freq * (13/10) + noiseOffset * (1/2))
    fbmGo M noiseOffset randomFreq n (x + 100) (y + 100) (amp * (1/2))
      (freq * 2 * randomFreq) (t + nv * amp)

/-- `fbm(x, y, octaves)`: fractal sum of sine/cosine products, base
amplitude `0.5`, base frequency `0.02`, lacunarity `2 * (1 +
poolingRandomness * 2)`, shift `100` per octave. -/
def fbm (M : JsMath) (noiseOffset poolingRandomness x y : ℚ) (octaves : ℕ) : ℚ :=
  fbmGo M noiseOffset (1 + poolingRandomness * 2) octaves x y (1/2) (2/100) 0

/-- A resolved RGB colour (the engine stores particles' colours as
`rgba(r, g, b, 1)` strings built from this triple). -/
structure Rgb where
  r : ℤ
  g : ℤ
  b : ℤ
deriving DecidableEq

/-- Value of one hexadecimal digit, case-insensitive, as in the
`hexToRgb` regular expression `[a-f\d]`. -/
def hexDigitVal (c : Char) : Option ℤ :=
  if '0' ≤ c ∧ c ≤ '9' then some ((c.toNat : ℤ) - ('0'.toNat : ℤ))
  else if 'a' ≤ c ∧ c ≤ 'f' then some ((c.toNat : ℤ) - ('a'.toNat : ℤ) + 10)
  else if 'A' ≤ c ∧ c ≤ 'F' then some ((c.toNat : ℤ) - ('A'.toNat : ℤ) + 10)
  else none

/-- Two hexadecimal digits, `[a-f\d]{2}`. -/
def hexPair (c₁ c₂ : Char) : Option ℤ :=
  match hexDigitVal c₁, hexDigitVal c₂ with
  | some a, some b => some (a * 16 + b)
  | _, _ => none

/-- `hexToRgb(hex)`: matches `^#?([a-f\d]{2})([a-f\d]{2})([a-f\d]{2})$`
case-insensitively and falls back to red `{255, 0, 0}`. -/
def hexToRgb (s : String) : Rgb :=
  let core := match s.toList with
    | '#' :: rest => rest
    | cs => cs
  match core with
  | [c₁, c₂, c₃, c₄, c₅, c₆] =>
    match hexPair c₁ c₂, hexPair c₃ c₄, hexPair c₅ c₆ with
    | some r, some g, some b => ⟨r, g, b⟩
    | _, _, _ => ⟨255, 0, 0⟩
  | _ => ⟨255, 0, 0⟩

/-- A liquid particle.  Optional fields model JS object fields that only
some spawn paths set (`originX`/`originY` for emitter-spawned pool
particles); boolean flags default to `false` (absent = falsy). -/
structure Particle where
  x : ℚ
  y : ℚ
  prevX : ℚ
  prevY : ℚ
  vx : ℚ
  vy : ℚ
  originX : Option ℚ := none
  originY : Option ℚ := none
  mass : ℚ
  initialMass : ℚ
  color : Rgb
  active : Bool := true
  life : ℚ
  pool : Bool := false
  isMist : Bool := false
  isSplatter : Bool := false
deriving DecidableEq

/-- A long-lived emitter.  The `type` tag is the material / substrate
string; tlou emitters carry a frame choice, rotation and scale. -/
structure Emitter where
  x : ℚ
  y : ℚ
  originX : Option ℚ := none
  originY : Option ℚ := none
  active : Bool := true
  age : ℚ
  duration : ℚ
  type : String
  wanderAngle : ℚ := 0
  pulsePhase : ℚ := 0
  frameRow : ℤ := 0
  frameCol : ℤ := 0
  rotation : ℚ := 0
  scale : ℚ := 1
deriving DecidableEq

/-- A vector-drip head. -/
structure DripHead where
  x : ℚ
  y : ℚ
  prevX : ℚ
  prevY : ℚ
  vx : ℚ
  vy : ℚ
  width : ℚ
  active : Bool := true
deriving DecidableEq

/-- A decoded formation raster (the flipbook asset or its procedural
fallback): byte data indexed linearly, with the JS array length. -/
structure FormationData where
  width : ℤ
  height : ℤ
  len : ℤ
  data : ℤ → ℕ

/-- Whether a pixel of the procedural fallback formation sheet is inside
its frame's blob (frame size 64, 6×6 frames, radius growing with the
frame index). -/
def fallbackFormationPixel (px py : ℕ) : Bool :=
  let fx := px / 64
  let fy := py / 64
  let frameIdx := fy * 6 + fx
  let cx : ℚ := (fx : ℚ) * 64 + 32
  let cy : ℚ := (fy : ℚ) * 64 + 32
  let dx : ℚ := (px : ℚ) - cx
  let dy : ℚ := (py : ℚ) - cy
  let radius : ℚ := (64 * (45/100)) * ((frameIdx : ℚ) / 36)
  decide (dx * dx + dy * dy < radius * radius)

/-- `createFallbackFormationData()`: a 384×384 RGBA sheet, 255 on all
four channels inside each frame's blob and 0 elsewhere. -/
def createFallbackFormationData : FormationData where
  width := 384
  height := 384
  len := 384 * 384 * 4
  data := fun i =>
    if 0 ≤ i ∧ i < 384 * 384 * 4 then
      let p := i.toNat / 4
      if fallbackFormationPixel (p % 384) (p / 384) then 255 else 0
    else 0

/-- The caliber presets of `spawnBallistic`. -/
structure CaliberStats where
  count : ℚ
  speed : ℚ
  spread : ℚ
  size : ℚ
  mist : ℚ
deriving DecidableEq

/-- `calibers[cal] || calibers['9mm']`. -/
def caliberStats (cal : String) : CaliberStats :=
  if cal = "22lr" then ⟨20, 120, 10/100, 8/10, 1/10⟩
  else if cal = "9mm" then ⟨45, 150, 20/100, 11/10, 25/100⟩
  else if cal = "45acp" then ⟨40, 130, 25/100, 16/10, 2/10⟩
  else if cal = "556" then ⟨180, 280, 40/100, 7/10, 85/100⟩
  else if cal = "12ga" then ⟨250, 220, 70/100, 1, 6/10⟩
  else ⟨45, 150, 20/100, 11/10, 25/100⟩

/-- The full engine state (the fields of the `FluidSimulator` object that
participate in simulation; canvases and contexts are rendering-only). -/
structure State where
  width : ℤ
  height : ℤ
  seed : ℤ
  wetMap : ℤ → ℕ
  particles : List Particle
  maxParticles : ℕ
  mode : String
  activeCaliber : String
  spawnMode : String
  viscosity : ℚ
  density : ℚ
  gravityStrength : ℚ
  spawnRate : ℚ
  spawnVelocity : ℚ
  spawnDirection : ℚ
  spreadAngle : ℚ
  particleSize : ℚ
  color : String
  opacity : ℚ
  turbulence : ℚ
  noiseOffset : ℚ
  emitters : List Emitter
  dripHeads : List DripHead
  maskData : ℤ → Option ℕ
  hasMask : Bool
  material : String
  surfaceTension : ℚ
  timeScale : ℚ
  substeps : ℚ
  paused : Bool
  particleLifetime : ℚ
  infiniteLifetime : Bool
  sizeRandomness : ℚ
  poolingRandomness : ℚ
  gridScale : ℚ
  gridCellSize : ℚ
  gridWidth : ℕ
  gridHeight : ℕ
  grid : List ℚ
  roughnessMap : List ℚ
  permeabilityMap : List ℚ
  formationData : Option FormationData

/-- `initRoughness()`: fills the static roughness and permeability maps
from the current noise offset and pooling randomness (row-major, `idx = y
* gridWidth + x`). -/
def initRoughness (M : JsMath) (noiseOffset poolingRandomness : ℚ) (gw gh : ℕ) :
    List ℚ × List ℚ :=
  let rough := (List.range (gh * gw)).map fun i =>
    let x : ℚ := (i % gw : ℕ)
    let y : ℚ := (i / gw : ℕ)
    let nx := x * (5/100)
    let ny := y * (5/100)
    (noise M noiseOffset nx ny
      + noise M noiseOffset (nx * 2) (ny * 2) * (1/2)
      + noise M noiseOffset (nx * 4) (ny * 4) * (1/4)) / (175/100)
  let perm := (List.range (gh * gw)).map fun i =>
    let x : ℚ := (i % gw : ℕ)
    let y : ℚ := (i / gw : ℕ)
    fbm M noiseOffset poolingRandomness (x * 2) (y * 2) 2 * (1/2) + (1/2)
  (rough, perm)

/-- A fresh all-blocked (all-zero) mask logic map of the given canvas
size: JS reads inside the array give `0`, outside give `undefined`. -/
def zeroMask (w h : ℤ) : ℤ → Option ℕ :=
  fun i => if 0 ≤ i ∧ i < w * h then some 0 else none

/-- The `FluidSimulator(width, height)` constructor.  `entropy` is the
value drawn from `Math.random()` for the noise offset (`noiseOffset =
Math.random() * 1000`). -/
def mkSimulator (M : JsMath) (width height : ℤ) (entropy : ℚ) : State :=
  let gw := (⌈(width : ℚ) * (1/4)⌉).toNat
  let gh := (⌈(height : ℚ) * (1/4)⌉).toNat
  let noiseOffset := entropy * 1000
  let maps := initRoughness M noiseOffset (1/5) gw gh
  { width := width
    height := height
    seed := 1337
    wetMap := fun _ => 0
    particles := []
    maxParticles := 6000
    mode := "wall"
    activeCaliber := "9mm"
    spawnMode := "spray"
    viscosity := 1/5
    density := 50
    gravityStrength := 1
    spawnRate := 30
    spawnVelocity := 50
    spawnDirection := jsPI / 2
    spreadAngle := 30
    particleSize := 10
    color := "#ff0000"
    opacity := 9/10
    turbulence := 0
    noiseOffset := noiseOffset
    emitters := []
    dripHeads := []
    maskData := zeroMask width height
    hasMask := false
    material := "custom"
    surfaceTension := 3/10
    timeScale := 1
    substeps := 3
    paused := false
    particleLifetime := 10
    infiniteLifetime := false
    sizeRandomness := 1/2
    poolingRandomness := 1/5
    gridScale := 1/4
    gridCellSize := 20
    gridWidth := gw
    gridHeight := gh
    grid := List.replicate (gw * gh) 0
    roughnessMap := maps.1
    permeabilityMap := maps.2
    formationData := some createFallbackFormationData }

/-- `reset()`: clears particles, emitters, drip heads, wet map and grid,
restores the seed to 1337 and redraws the noise offset from the
non-deterministic source (`entropy` is that `Math.random()` value), then
regenerates the roughness and permeability maps. -/
def reset (M : JsMath) (s : State) (entropy : ℚ) : State :=
  let noiseOffset := entropy * 1000
  let maps := initRoughness M noiseOffset s.poolingRandomness s.gridWidth s.gridHeight
  { s with
    particles := []
    emitters := []
    dripHeads := []
    wetMap := fun _ => 0
    grid := List.replicate (s.gridWidth * s.gridHeight) 0
    seed := 1337
    noiseOffset := noiseOffset
    roughnessMap := maps.1
    permeabilityMap := maps.2 }

/-- `clearMask()`. -/
def clearMask (s : State) : State :=
  { s with hasMask := false, maskData := zeroMask s.width s.height }

/-- `setMode(mode)`: sets the mode, resets (drawing fresh entropy), in
experimental mode regenerates roughness, and clears the mask. -/
def setMode (M : JsMath) (s : State) (mode : String) (entropy : ℚ) : State :=
  let s₁ := reset M { s with mode := mode } entropy
  let s₂ :=
    if mode = "experimental" then
      let maps := initRoughness M s₁.noiseOffset s₁.poolingRandomness s₁.gridWidth s₁.gridHeight
      { s₁ with roughnessMap := maps.1, permeabilityMap := maps.2 }
    else s₁
  clearMask s₂

/-- `resize(width, height)`: reallocates the wet map, grid, static maps
and mask at the new size (the canvas content restore is rendering-only). -/
def resize (M : JsMath) (s : State) (width height : ℤ) : State :=
  let gw := (⌈(width : ℚ) * s.gridScale⌉).toNat
  let gh := (⌈(height : ℚ) * s.gridScale⌉).toNat
  let maps := initRoughness M s.noiseOffset s.poolingRandomness gw gh
  { s with
    width := width
    height := height
    wetMap := fun _ => 0
    gridWidth := gw
    gridHeight := gh
    grid := List.replicate (gw * gh) 0
    roughnessMap := maps.1
    permeabilityMap := maps.2
    maskData := zeroMask width height
    hasMask := false }

/-- The `(color, viscosity, density, opacity, tension, turbulence)` of a
material preset of `applyMaterial`, if it has one. -/
def materialPreset (mat : String) : Option (String × ℚ × ℚ × ℚ × ℚ × ℚ) :=
  if mat = "water" then some ("#2b95ff", 1/10, 40, 6/10, 4/10, 0)
  else if mat = "blood" then some ("#7a0000", 1/2, 80, 95/100, 6/10, 4/10)
  else if mat = "oil" then some ("#1a1a1a", 4/10, 55, 98/100, 1/2, 0)
  else if mat = "honey" then some ("#dca600", 8/10, 80, 9/10, 8/10, 0)
  else if mat = "slime" then some ("#52ff00", 6/10, 65, 8/10, 6/10, 0)
  else if mat = "chocolate" then some ("#3e2723", 7/10, 70, 1, 6/10, 0)
  else none

/-- `applyMaterial(mat)`: records the material and, when a preset exists,
copies its colour and physical parameters (`tension || 0.3` and the
`turbulence !== undefined ? turbulence : 0` defaults are already resolved
in `materialPreset`). -/
def applyMaterial (s : State) (mat : String) : State :=
  let s := { s with material := mat }
  match materialPreset mat with
  | some (color, viscosity, density, opacity, tension, turbulence) =>
    { s with color := color, viscosity := viscosity, density := density,
             opacity := opacity, surfaceTension := tension, turbulence := turbulence }
  | none => s

/-- The flat configuration snapshot returned by `getState()` (note: no
`noiseOffset`, no `seed`, no `activeCaliber`, no lifetime / randomness
fields). -/
structure Snapshot where
  width : ℤ
  height : ℤ
  mode : String
  spawnMode : String
  viscosity : ℚ
  density : ℚ
  gravityStrength : ℚ
  spawnRate : ℚ
  spawnVelocity : ℚ
  spawnDirection : ℚ
  spreadAngle : ℚ
  particleSize : ℚ
  color : String
  opacity : ℚ
  turbulence : ℚ
  material : String
  surfaceTension : ℚ
  timeScale : ℚ
  substeps : ℚ
deriving DecidableEq

/-- `getState()`. -/
def getState (s : State) : Snapshot where
  width := s.width
  height := s.height
  mode := s.mode
  spawnMode := s.spawnMode
  viscosity := s.viscosity
  density := s.density
  gravityStrength := s.gravityStrength
  spawnRate := s.spawnRate
  spawnVelocity := s.spawnVelocity
  spawnDirection := s.spawnDirection
  spreadAngle := s.spreadAngle
  particleSize := (s.particleSize - 4) / 2
  color := s.color
  opacity := s.opacity
  turbulence := s.turbulence
  material := s.material
  surfaceTension := s.surfaceTension
  timeScale := s.timeScale
  substeps := s.substeps

/-- `setState(s)` applied to a `getState()`-shaped snapshot.  JS
truthiness guards numbers against `0` and strings against `""`; the
`!== undefined` guards are always true for fields the snapshot carries,
and the lifetime / randomness setters at the end of `setState` never fire
because `getState()` does not emit those fields.  `entropy` feeds the
`reset()` inside `setMode`. -/
def setState (M : JsMath) (s : State) (snap : Snapshot) (entropy : ℚ) : State :=
  let s := if snap.width ≠ 0 then resize M s snap.width snap.height else s
  let s := if snap.mode ≠ "" then setMode M s snap.mode entropy else s
  let s := if snap.spawnMode ≠ "" then { s with spawnMode := snap.spawnMode } else s
  let s := { s with viscosity := snap.viscosity }
  let s := { s with density := snap.density }
  let s := { s with gravityStrength := snap.gravityStrength }
  let s := { s with spawnRate := snap.spawnRate }
  let s := { s with spawnVelocity := snap.spawnVelocity }
  let s := { s with spawnDirection := snap.spawnDirection }
  let s := { s with spreadAngle := snap.spreadAngle }
  let s := { s with particleSize := 4 + snap.particleSize * 2 }
  let s := if snap.color ≠ "" then { s with color := snap.color } else s
  let s := { s with opacity := snap.opacity }
  let s := { s with turbulence := snap.turbulence }
  let s := if snap.material ≠ "" then applyMaterial s snap.material else s
  let s := { s with surfaceTension := snap.surfaceTension }
  let s := { s with timeScale := snap.timeScale }
  { s with substeps := max 1 snap.substeps }

/-- One iteration of the spray loop of `spawn(x, y)`: capacity handling
(wall evicts the oldest, other modes evict the oldest only when `random()
> 0.5`), the size draw, then the wall or floor velocity profile; in floor
mode the spawn point itself is jittered and the jitter persists into the
following iterations.  The accumulator is `(particles, seed, x, y)`. -/
def spawnSprayIter (M : JsMath) (s : State) (rgb : Rgb) (baseSpeed : ℚ)
    (acc : List Particle × ℤ × ℚ × ℚ) : List Particle × ℤ × ℚ × ℚ :=
  let (ps, seed, x, y) := acc
  let (ps, seed) :=
    if ps.length ≥ s.maxParticles then
      if s.mode = "wall" then (ps.drop 1, seed)
      else
        let (r, seed') := jsRandom M seed
        if r > 1/2 then (ps.drop 1, seed') else (ps, seed')
    else (ps, seed)
  let (rv, seed) := jsRandom M seed
  let variance := (rv - 1/2) * 2 * s.sizeRandomness
  let mass := s.particleSize * (1 + variance) * (s.density / 50)
  if s.mode = "wall" then
    let spread := s.spreadAngle * jsPI / 180
    let (r₁, seed) := jsRandom M seed
    let angle := s.spawnDirection + (r₁ - 1/2) * spread
    let (r₂, seed) := jsRandom M seed
    let speed := baseSpeed * (1/2 + r₂ * 1)
    let p : Particle :=
      { x := x, y := y, prevX := x, prevY := y,
        vx := M.cos angle * speed, vy := M.sin angle * speed,
        mass := mass, initialMass := mass, color := rgb,
        life := s.particleLifetime }
    (ps ++ [p], seed, x, y)
  else
    let (r₁, seed) := jsRandom M seed
    let angle := r₁ * jsPI * 2
    let (r₂, seed) := jsRandom M seed
    let speed := baseSpeed * (1/10) * r₂
    let (r₃, seed) := jsRandom M seed
    let x := x + (r₃ - 1/2) * 5
    let (r₄, seed) := jsRandom M seed
    let y := y + (r₄ - 1/2) * 5
    let p : Particle :=
      { x := x, y := y, prevX := x, prevY := y,
        vx := M.cos angle * speed, vy := M.sin angle * speed,
        mass := mass, initialMass := mass, color := rgb,
        life := s.particleLifetime }
    (ps ++ [p], seed, x, y)

/-- The spray path of `spawn(x, y)`: `ceil(spawnRate / 2)` iterations of
the spray loop. -/
def spawnSpray (M : JsMath) (s : State) (x y : ℚ) : State :=
  let count := (⌈s.spawnRate / 2⌉).toNat
  let rgb := hexToRgb s.color
  let baseSpeed := s.spawnVelocity * 20
  let res := (spawnSprayIter M s rgb baseSpeed)^[count] (s.particles, s.seed, x, y)
  { s with particles := res.1, seed := res.2.1 }

/-- One iteration of the `spawnBlob` loop: unconditional oldest eviction
at capacity, radial placement, mode-dependent velocity, size draw. -/
def spawnBlobIter (M : JsMath) (s : State) (rgb : Rgb) (impactForce x y : ℚ)
    (acc : List Particle × ℤ) : List Particle × ℤ :=
  let (ps, seed) := acc
  let ps := if ps.length ≥ s.maxParticles then ps.drop 1 else ps
  let (r₁, seed) := jsRandom M seed
  let angle := r₁ * jsPI * 2
  let (r₂, seed) := jsRandom M seed
  let r := r₂ * s.particleSize * 2
  let px := x + M.cos angle * r
  let py := y + M.sin angle * r
  let (vx, vy, seed) :=
    if s.mode = "floor" then
      let (r₃, seed) := jsRandom M seed
      let speed := r₃ * impactForce * (2/10)
      (M.cos angle * speed, M.sin angle * speed, seed)
    else
      let (r₃, seed) := jsRandom M seed
      let (r₄, seed) := jsRandom M seed
      ((r₃ - 1/2) * impactForce, |r₄| * impactForce, seed)
  let (r₅, seed) := jsRandom M seed
  let variance := (r₅ - 1/2) * 2 * s.sizeRandomness
  let mass := s.particleSize * (1 + variance)
  let p : Particle :=
    { x := px, y := py, prevX := px, prevY := py, vx := vx, vy := vy,
      mass := mass, initialMass := s.particleSize, color := rgb,
      life := s.particleLifetime }
  (ps ++ [p], seed)

/-- `spawnBlob(x, y)`: `20 + floor(particleSize * 5)` particles in a
radial burst. -/
def spawnBlob (M : JsMath) (s : State) (x y : ℚ) : State :=
  let particleCount := (20 + ⌊s.particleSize * 5⌋).toNat
  let rgb := hexToRgb s.color
  let impactForce := s.spawnVelocity * 10
  let res := (spawnBlobIter M s rgb impactForce x y)^[particleCount] (s.particles, s.seed)
  { s with particles := res.1, seed := res.2 }

/-- The mask veto common to `spawnPool`, `spawnExperimental`: spawn is
refused when the floored spawn point is on-canvas and its mask cell is 0. -/
def maskBlocksSpawn (s : State) (x y : ℚ) : Bool :=
  s.hasMask &&
    (let mx := ⌊x⌋
     let my := ⌊y⌋
     decide (0 ≤ mx ∧ mx < s.width ∧ 0 ≤ my ∧ my < s.height) &&
       decide (s.maskData (my * s.width + mx) = some 0))

/-- `spawnPool(x, y)`: mask veto, the one-click particle-size preset,
then a 600-second `"pool"` emitter with a random wander heading and the
origin recorded for outward bias. -/
def spawnPool (M : JsMath) (s : State) (x y : ℚ) : State :=
  if maskBlocksSpawn s x y then s
  else
    let s := if s.mode = "one-click" then { s with particleSize := 4 + 6 * 2 } else s
    let (r, seed) := jsRandom M s.seed
    let e : Emitter :=
      { x := x, y := y, originX := some x, originY := some y, age := 0,
        duration := 600, type := "pool", wanderAngle := r * jsPI * 2 }
    { s with emitters := s.emitters ++ [e], seed := seed }

/-- `spawnExperimental(x, y)`: mask veto, then a quasi-persistent
`"experimental"` grid emitter. -/
def spawnExperimental (s : State) (x y : ℚ) : State :=
  if maskBlocksSpawn s x y then s
  else
    let e : Emitter := { x := x, y := y, age := 0, duration := 99999, type := "experimental" }
    { s with emitters := s.emitters ++ [e] }

/-- `spawnSmart(x, y)`: a quasi-persistent `"smart"` grid emitter. -/
def spawnSmart (s : State) (x y : ℚ) : State :=
  let e : Emitter := { x := x, y := y, age := 0, duration := 99999, type := "smart" }
  { s with emitters := s.emitters ++ [e] }

/-- `spawnTLOU(x, y)`: picks one of the 36 sub-UV frames, a rotation and
a scale, and pushes a 300-second `"tlou"` emitter. -/
def spawnTLOU (M : JsMath) (s : State) (x y : ℚ) : State :=
  let (r₁, seed) := jsRandom M s.seed
  let frameIdx := ⌊r₁ * 36⌋
  let row := ⌊(frameIdx : ℚ) / 6⌋
  -- frameIdx % 6 for the nonnegative frameIdx
  let col := frameIdx - 6 * row
  let (r₂, seed) := jsRandom M seed
  let (r₃, seed) := jsRandom M seed
  let e : Emitter :=
    { x := x, y := y, age := 0, duration := 300, type := "tlou",
      frameRow := row, frameCol := col, rotation := r₂ * jsPI * 2,
      scale := 1 + r₃ * (1/2) }
  { s with emitters := s.emitters ++ [e], seed := seed }

/-- One splash-droplet iteration of `spawnVectorDrip` (canvas-only, but
it consumes three PRNG draws). -/
def vectorDripSplashIter (M : JsMath) (seed : ℤ) : ℤ :=
  let (_, seed) := jsRandom M seed
  let (_, seed) := jsRandom M seed
  let (_, seed) := jsRandom M seed
  seed

/-- One drip-head iteration of `spawnVectorDrip`. -/
def vectorDripHeadIter (M : JsMath) (x y r : ℚ) (acc : List DripHead × ℤ) :
    List DripHead × ℤ :=
  let (hs, seed) := acc
  let (r₁, seed) := jsRandom M seed
  let w := 4 + r₁ * 6
  let (r₂, seed) := jsRandom M seed
  let speed := 50 + r₂ * 50
  let (r₃, seed) := jsRandom M seed
  let hx := x + (r₃ - 1/2) * r
  let (r₄, seed) := jsRandom M seed
  let hy := y + (r₄ - 1/2) * r
  let h : DripHead :=
    { x := hx, y := hy, prevX := x, prevY := y, vx := 0, vy := speed, width := w }
  (hs ++ [h], seed)

/-- `spawnVectorDrip(x, y)`: 10 splash droplets painted to the surface
(three draws each), then `3 + floor(random() * 3)` active drip heads. -/
def spawnVectorDrip (M : JsMath) (s : State) (x y : ℚ) : State :=
  let r := s.particleSize * 3
  let seed := (vectorDripSplashIter M)^[10] s.seed
  let (rd, seed) := jsRandom M seed
  let dripCount := (3 + ⌊rd * 3⌋).toNat
  let res := (vectorDripHeadIter M x y r)^[dripCount] (s.dripHeads, seed)
  { s with dripHeads := res.1, seed := res.2 }

/-- One iteration of the `spawnBallistic` loop. -/
def spawnBallisticIter (M : JsMath) (s : State) (stats : CaliberStats)
    (rgb : Rgb) (baseSpread x y angle : ℚ) (acc : List Particle × ℤ) :
    List Particle × ℤ :=
  let (ps, seed) := acc
  let ps := if ps.length ≥ s.maxParticles then ps.drop 1 else ps
  let (r, seed) := jsRandom M seed
  -- type: 'splatter' for r < 0.2, 'mist' for r < mist + 0.2, else 'drop'
  let isSplatter := r < 2/10
  let isMist := ¬ isSplatter ∧ r < stats.mist + 2/10
  let spreadMult : ℚ := if isSplatter then 1/2 else if isMist then 12/10 else 1
  let (r₁, seed) := jsRandom M seed
  let spreadVar := (r₁ - 1/2) * baseSpread * spreadMult
  let theta := angle + spreadVar
  let (r₂, seed) := jsRandom M seed
  let speedVar := 8/10 + r₂ * (6/10)
  let speed := stats.speed * speedVar * 30
  let speed := if isSplatter then speed * 2 else if isMist then speed * (12/10) else speed
  let sizeBase := if isMist then stats.size * (1/2)
    else if isSplatter then stats.size * (4/10) else stats.size
  let mass := s.particleSize * sizeBase * (if ¬ isSplatter ∧ ¬ isMist then 1 else 4/10)
  let (r₃, seed) := jsRandom M seed
  let spawnOffset := r₃ * 20
  let sx := x + M.cos theta * spawnOffset
  let sy := y + M.sin theta * spawnOffset
  let p : Particle :=
    { x := sx, y := sy, prevX := sx, prevY := sy,
      vx := M.cos theta * speed, vy := M.sin theta * speed,
      mass := mass, initialMass := mass, color := rgb,
      life := s.particleLifetime, isMist := decide isMist,
      isSplatter := decide isSplatter }
  (ps ++ [p], seed)

/-- The particle count of `spawnBallistic`: `floor(stats.count * (1 +
distance * 0.5))`. -/
def ballisticCount (stats : CaliberStats) (distance : ℚ) : ℤ :=
  ⌊stats.count * (1 + distance * (1/2))⌋

/-- `spawnBallistic(x, y, angle, distance)`. -/
def spawnBallistic (M : JsMath) (s : State) (x y angle distance : ℚ) : State :=
  let stats := caliberStats s.activeCaliber
  let rgb := hexToRgb s.color
  let baseSpread := stats.spread * (1 + distance * (15/10))
  let count := (ballisticCount stats distance).toNat
  let res := (spawnBallisticIter M s stats rgb baseSpread x y angle)^[count]
    (s.particles, s.seed)
  { s with particles := res.1, seed := res.2 }

/-- The spatial-hash bucket key of a particle: `floor(y / cellSize) *
cols + floor(x / cellSize)`. -/
def bucketKey (cellSize : ℚ) (cols : ℤ) (p : Particle) : ℤ :=
  ⌊p.y / cellSize⌋ * cols + ⌊p.x / cellSize⌋

/-- The contents of spatial-hash bucket `k` after the bucketing pass of
`applyRepulsion`: the list indices, in list order, of the positive-mass
particles hashing to `k`.  The bucket array has 3000 entries, so keys
outside `[0, 3000)` hold nothing (`this.buckets[idx]` is undefined). -/
def bucketContents (cellSize : ℚ) (cols : ℤ) (ps : List Particle) (k : ℤ) : List ℕ :=
  if 0 ≤ k ∧ k < 3000 then
    (ps.enum.filter fun ip => ¬ ip.2.mass ≤ 0 ∧ bucketKey cellSize cols ip.2 = k).map
      Prod.fst
  else []

/-- Accumulator of the per-particle neighbour scan: interaction count,
running velocity, and whether the interaction cap broke the scan. -/
structure RepulsionAcc where
  count : ℕ
  vx : ℚ
  vy : ℚ
  stopped : Bool

/-- One candidate neighbour of the scan: skip self (reference equality =
same list index), distance gate, interaction cap, then the repulsion /
attraction force applied to the scanning particle's velocity. -/
def repulsionCandidate (M : JsMath) (dt interactMult pressureStrength tensionStrength
    restDist interactionDist : ℚ) (ps : List Particle) (selfIdx : ℕ) (p₁ : Particle)
    (acc : RepulsionAcc) (j : ℕ) : RepulsionAcc :=
  if acc.stopped then acc
  else if j = selfIdx then acc
  else
    match ps.get? j with
    | none => acc
    | some p₂ =>
      let dx := p₁.x - p₂.x
      let dy := p₁.y - p₂.y
      let distSq := dx * dx + dy * dy
      if ¬ (distSq < interactionDist * interactionDist ∧ distSq > 1/100) then acc
      else if acc.count + 1 > 20 then { acc with count := acc.count + 1, stopped := true }
      else
        let dist := M.sqrt distSq
        let nx := dx / dist
        let ny := dy / dist
        let force :=
          if dist < restDist then
            let u := 1 - dist / restDist
            let f := pressureStrength * u * interactMult
            if f > 500 then 500 else f
          else
            let u := (dist - restDist) / (interactionDist - restDist)
            let pull := (1 - u) * tensionStrength * interactMult; -pull
        { acc with count := acc.count + 1,
                   vx := acc.vx + nx * force * dt,
                   vy := acc.vy + ny * force * dt }

/-- The full 3×3-neighbourhood scan of `applyRepulsion` for one particle:
buckets are scanned rows first (`j` outer, `i` inner), each bucket in
push order. -/
def applyRepulsionParticle (M : JsMath) (s : State) (dt : ℚ) (ps : List Particle)
    (cols : ℤ) (selfIdx : ℕ) (p₁ : Particle) : Particle :=
  if p₁.mass ≤ 0 then p₁
  else
    let cellSize := s.gridCellSize
    let interactMult : ℚ := if s.mode = "one-click" then 5/100 else 1
    let pressureStrength := 2000 * (s.density / 50)
    let tensionStrength := 1500 * s.surfaceTension
    let restDist := s.particleSize * (15/10)
    let interactionDist := s.particleSize * 4
    let cx := ⌊p₁.x / cellSize⌋
    let cy := ⌊p₁.y / cellSize⌋
    let candidates :=
      ([cy - 1, cy, cy + 1].map fun j =>
        ([cx - 1, cx, cx + 1].map fun i =>
          bucketContents cellSize cols ps (j * cols + i)).flatten).flatten
    let acc := candidates.foldl
      (repulsionCandidate M dt interactMult pressureStrength tensionStrength
        restDist interactionDist ps selfIdx p₁)
      ⟨0, p₁.vx, p₁.vy, false⟩
    { p₁ with vx := acc.vx, vy := acc.vy }

/-- `applyRepulsion(dt)`: spatial-hash bucketing then the pairwise force
pass.  The pass reads only positions and masses (never velocities) and
writes only the scanning particle's velocity, so computing every new
velocity from the original list is exact. -/
def applyRepulsion (M : JsMath) (s : State) (dt : ℚ) : State :=
  let cols := ⌈(s.width : ℚ) / s.gridCellSize⌉
  { s with particles := s.particles.enum.map fun ip =>
      applyRepulsionParticle M s dt s.particles cols ip.1 ip.2 }

/-- The grid-substrate emitter types, skipped by the particle-spawning
emitter loop at the top of `step`. -/
def isGridEmitterType (t : String) : Bool :=
  t = "smart" || t = "tlou" || t = "experimental"

/-- One particle spawned by an (already aged and wandered) emitter `e` in
the step emitter loop: random-index eviction at capacity, heading with
material-dependent spread around the wander angle, source-volume offset,
launch speed, size draw and position jitter. -/
def emitterSpawnIter (M : JsMath) (s : State) (rgb : Rgb) (e : Emitter) (speed : ℚ)
    (acc : List Particle × ℤ) : List Particle × ℤ :=
  let (ps, seed) := acc
  let (ps, seed) :=
    if ps.length ≥ s.maxParticles then
      let (r, seed') := jsRandom M seed
      (ps.eraseIdx (⌊r * ps.length⌋).toNat, seed')
    else (ps, seed)
  let spread : ℚ := if e.type = "blood" then 1/2 else 1
  let (r₁, seed) := jsRandom M seed
  let angle := e.wanderAngle + (r₁ - 1/2) * spread
  let (r₂, seed) := jsRandom M seed
  let r := r₂ * 2
  let px := e.x + M.cos angle * r
  let py := e.y + M.sin angle * r
  let (r₃, seed) := jsRandom M seed
  let v := speed * (1/2 + r₃ * (1/2))
  let (r₄, seed) := jsRandom M seed
  let variance := (r₄ - 1/2) * 2 * s.sizeRandomness
  let mass := s.particleSize * (1 + variance)
  let (r₅, seed) := jsRandom M seed
  let jx := (r₅ - 1/2) * 5
  let (r₆, seed) := jsRandom M seed
  let jy := (r₆ - 1/2) * 5
  let p : Particle :=
    { x := px + jx, y := py + jy, prevX := px, prevY := py,
      vx := M.cos angle * v, vy := M.sin angle * v,
      originX := some (e.originX.getD e.x), originY := some (e.originY.getD e.y),
      mass := mass, initialMass := s.particleSize, color := rgb,
      life := s.particleLifetime, pool := true }
  (ps ++ [p], seed)

/-- Processing of a single non-grid emitter in the step emitter loop:
aging (with removal once past its duration), fbm-driven wander of the
heading and source position, the mode/material emission profile, then the
Bernoulli-rounded spawn count and the spawn loop.  Returns `none` when
the emitter was spliced out.  (The `wanderSpeed` local of the source is
computed but never used.) -/
def stepEmitter (M : JsMath) (s : State) (dt : ℚ) (e : Emitter)
    (ps : List Particle) (seed : ℤ) : Option Emitter × List Particle × ℤ :=
  let age := e.age + dt
  if age > e.duration then (none, ps, seed)
  else
    let wanderNoise := fbm M s.noiseOffset s.poolingRandomness (age * 20) 0 2
    let turnRate := 5 * (1 + s.poolingRandomness * 3)
    let wanderAngle := e.wanderAngle + wanderNoise * turnRate * dt
    let sourceSpeed := 10 * s.poolingRandomness
    let ex := e.x + M.cos wanderAngle * sourceSpeed * dt
    let ey := e.y + M.sin wanderAngle * sourceSpeed * dt
    let rateSpeed : ℚ × ℚ :=
      if s.mode = "one-click" then (80, 30)
      else if e.type = "blood" then
        let period : ℚ := 8/10
        let phase := jsMod age period / period
        let pulse := M.pow (M.exp (-8 * phase)) 2
        (20 + 400 * pulse, 12 + 80 * pulse)
      else (150, 20)
    let cnt := rateSpeed.1 * dt
    let whole := ⌊cnt⌋
    let fr := cnt - whole
    let (r, seed) := jsRandom M seed
    let numToSpawn := (whole + if r < fr then 1 else 0).toNat
    let rgb := hexToRgb s.color
    let e' := { e with age := age, wanderAngle := wanderAngle, x := ex, y := ey }
    let res := (emitterSpawnIter M s rgb e' rateSpeed.2)^[numToSpawn] (ps, seed)
    (some e', res.1, res.2)

/-- The emitter loop at the top of `step`, which iterates from the last
emitter down to the first (so the last emitter consumes PRNG values
first), splicing expired emitters in place and skipping grid-substrate
emitters entirely. -/
def emitterPhase (M : JsMath) (s : State) (dt : ℚ) :
    List Emitter → List Particle → ℤ → List Emitter × List Particle × ℤ
  | [], ps, seed => ([], ps, seed)
  | e :: rest, ps, seed =>
    let (rest', ps', seed') := emitterPhase M s dt rest ps seed
    if isGridEmitterType e.type then (e :: rest', ps', seed')
    else
      match stepEmitter M s dt e ps' seed' with
      | (none, ps'', seed'') => (rest', ps'', seed'')
      | (some e', ps'', seed'') => (e' :: rest', ps'', seed'')

/-- The wet-map accumulation of a streaking wall/ballistic particle: +20
(clamped to 255) at the particle's cell, +10 (clamped) at the right, left
and lower neighbours that exist. -/
def wetBump (s : State) (wm : ℤ → ℕ) (idx ix iy : ℤ) : ℤ → ℕ :=
  let w₁ := Function.update wm idx (if wm idx < 255 - 20 then wm idx + 20 else 255)
  let w₂ := if ix + 1 < s.width ∧ w₁ (idx + 1) < 255 then
      Function.update w₁ (idx + 1) (min 255 (w₁ (idx + 1) + 10)) else w₁
  let w₃ := if 0 ≤ ix - 1 ∧ w₂ (idx - 1) < 255 then
      Function.update w₂ (idx - 1) (min 255 (w₂ (idx - 1) + 10)) else w₂
  if iy + 1 < s.height ∧ w₃ (idx + s.width) < 255 then
    Function.update w₃ (idx + s.width) (min 255 (w₃ (idx + s.width) + 10)) else w₃

/-- The friction multiplier a wall/ballistic particle receives: the
viscosity law, overridden for splatter and mist particles in ballistic
mode, overridden again on wet surfaces, and clamped at zero. -/
def wallFriction (s : State) (dt : ℚ) (isSplatter isMist : Bool) (wetVal : ℕ) : ℚ :=
  let viscosityFactor := max (1/10) s.viscosity
  let friction := 1 - viscosityFactor * 2 * dt
  let friction :=
    if s.mode = "ballistic" then
      if isSplatter then 1 - 20 * dt
      else if isMist then 1 - 25 * dt
      else friction
    else friction
  let friction := if wetVal > 20 then 1 - viscosityFactor * (1/2) * dt else friction
  if friction < 0 then 0 else friction

/-- The friction multiplier a floor/one-click particle receives before
any one-click damping: exponential viscosity decay scaled by 0.99 in
noise channels and 0.80 on rough patches. -/
def floorFriction (M : JsMath) (s : State) (dt nVal : ℚ) : ℚ :=
  let viscosityFactor := max (1/10) s.viscosity
  let friction := M.exp (-viscosityFactor * 2 * dt)
  if nVal > 2/10 then friction * (99/100) else friction * (8/10)

/-- The constant damping factor applied to one-click particles in place
of `floorFriction` (which is computed but replaced in that mode). -/
def oneClickDamping : ℚ := 85/100

/-- The wall / ballistic integration branch for one particle.  Returns
the updated particle, wet map and seed. -/
def integrateWall (M : JsMath) (s : State) (dt : ℚ) (p : Particle) (speed : ℚ)
    (wm : ℤ → ℕ) (seed : ℤ) : Particle × (ℤ → ℕ) × ℤ :=
  let ix := ⌊p.x⌋
  let iy := ⌊p.y⌋
  let inb := 0 ≤ ix ∧ ix < s.width ∧ 0 ≤ iy ∧ iy < s.height
  let wetVal : ℕ := if inb then wm (iy * s.width + ix) else 0
  let p := { p with vy := p.vy + 2500 * s.gravityStrength * dt }
  -- the mist mass bleed happens where the mist friction is selected
  let p := if s.mode = "ballistic" ∧ ¬ p.isSplatter ∧ p.isMist ∧ speed < 100 then
      { p with mass := p.mass - dt * 10 } else p
  let friction := wallFriction s dt p.isSplatter p.isMist wetVal
  let p := { p with vx := p.vx * friction, vy := p.vy * friction }
  let dist := speed * dt
  let lossRate := (1/100) * (1 - s.viscosity * (1/2))
  let massThreshold := s.particleSize * (8/10)
  let canStreak := p.mass > massThreshold ∨ wetVal > 5
  let p :=
    if canStreak then
      let lossRate := if wetVal > 0 then lossRate * (4/10) else lossRate
      { p with mass := p.mass - dist * lossRate }
    else { p with mass := p.mass - dist * (lossRate * (1/10)) }
  let (p, seed) :=
    if speed > 10 then
      let (r, seed') := jsRandom M seed
      ({ p with vx := p.vx + (r - 1/2) * 150 * (1 - s.viscosity) * dt }, seed')
    else (p, seed)
  -- the trail is drawn to the surface canvas; only the wet-map
  -- accumulation under the same guard affects the simulation
  let wm := if p.active ∧ p.mass > 1/2 ∧ canStreak ∧ inb then
      wetBump s wm (iy * s.width + ix) ix iy else wm
  (p, wm, seed)

/-- The floor / one-click integration branch for one particle. -/
def integrateFloor (M : JsMath) (s : State) (dt : ℚ) (p : Particle) (speed : ℚ)
    (seed : ℤ) : Particle × ℤ :=
  let nVal := noise M s.noiseOffset p.x p.y
  let angle := nVal * jsPI * 4
  let (p, seed) :=
    if s.turbulence > 0 then
      let turbStrength := s.turbulence * 80
      let p := { p with vx := p.vx + M.cos angle * turbStrength * dt,
                        vy := p.vy + M.sin angle * turbStrength * dt }
      if s.turbulence > 1/2 then
        let (r₁, seed) := jsRandom M seed
        let (r₂, seed) := jsRandom M seed
        ({ p with vx := p.vx + (r₁ - 1/2) * s.turbulence * 20 * dt,
                  vy := p.vy + (r₂ - 1/2) * s.turbulence * 20 * dt }, seed)
      else (p, seed)
    else (p, seed)
  let p :=
    if s.mode = "one-click" then
      let flowBoost := 200 * dt * dt
      { p with vx := p.vx + M.cos angle * flowBoost, vy := p.vy + M.sin angle * flowBoost }
    else p
  -- mask constraint: revert and stop on a blocked cell, kill when the
  -- previous position is blocked too
  let p :=
    if s.hasMask then
      let ix := ⌊p.x⌋
      let iy := ⌊p.y⌋
      if (0 ≤ ix ∧ ix < s.width ∧ 0 ≤ iy ∧ iy < s.height) ∧
          s.maskData (iy * s.width + ix) = some 0 then
        let p := { p with x := p.prevX, y := p.prevY, vx := 0, vy := 0 }
        let pIx := ⌊p.prevX⌋
        let pIy := ⌊p.prevY⌋
        if (0 ≤ pIx ∧ pIx < s.width ∧ 0 ≤ pIy ∧ pIy < s.height) ∧
            s.maskData (pIy * s.width + pIx) = some 0 then
          { p with mass := 0 }
        else p
      else p
    else p
  let friction := floorFriction M s dt nVal
  let p :=
    if s.mode = "one-click" then
      let p := { p with vx := p.vx * oneClickDamping, vy := p.vy * oneClickDamping }
      match p.originX, p.originY with
      | some ox, some oy =>
        let dx := p.x - ox
        let dy := p.y - oy
        let dist := M.sqrt (dx * dx + dy * dy)
        if dist > 1 then
          let expansion := 200 * dt
          { p with vx := p.vx + dx / dist * expansion, vy := p.vy + dy / dist * expansion }
        else p
      | _, _ => p
    else { p with vx := p.vx * friction, vy := p.vy * friction }
  -- the stain pass draws to the surface canvas only
  let disableDecay : Bool := s.infiniteLifetime || (decide (s.mode = "one-click") && p.pool)
  let p :=
    if disableDecay then p
    else
      let p : Particle := if speed < 2 then { p with life := p.life - dt * 2 }
        else { p with life := p.life - dt }
      if p.life ≤ (0 : ℚ) then { p with mass := 0 } else p
  (p, seed)

/-- Integration of one particle in the `step` particle loop, ending in
the position update and the kill decision (`none` = spliced out). -/
def integrateParticle (M : JsMath) (s : State) (dt : ℚ) (p : Particle)
    (wm : ℤ → ℕ) (seed : ℤ) : Option Particle × (ℤ → ℕ) × ℤ :=
  let p := { p with prevX := p.x, prevY := p.y }
  let speed := M.sqrt (p.vx * p.vx + p.vy * p.vy)
  let (p, wm, seed) :=
    if s.mode = "wall" ∨ s.mode = "ballistic" then
      integrateWall M s dt p speed wm seed
    else if s.mode = "floor" ∨ s.mode = "one-click" then
      let (p, seed) := integrateFloor M s dt p speed seed
      (p, wm, seed)
    else (p, wm, seed)
  let p := { p with x := p.x + p.vx * dt, y := p.y + p.vy * dt }
  let outOfBounds := p.y > (s.height : ℚ) + 100 ∨ p.x < -100 ∨ p.x > (s.width : ℚ) + 100
  if p.mass ≤ 2/10 ∨ outOfBounds then (none, wm, seed) else (some p, wm, seed)

/-- The particle loop of `step`, which iterates from the last particle
down to the first, splicing killed particles in place; the wet map and
seed thread through in that order. -/
def integratePhase (M : JsMath) (s : State) (dt : ℚ) :
    List Particle → (ℤ → ℕ) → ℤ → List Particle × (ℤ → ℕ) × ℤ
  | [], wm, seed => ([], wm, seed)
  | p :: rest, wm, seed =>
    let (rest', wm', seed') := integratePhase M s dt rest wm seed
    match integrateParticle M s dt p wm' seed' with
    | (none, wm'', seed'') => (rest', wm'', seed'')
    | (some p', wm'', seed'') => (p' :: rest', wm'', seed'')

/-- Add `a` to grid cell `i` (writes outside the array are ignored, as
for a JS typed array). -/
def bump (g : List ℚ) (i : ℕ) (a : ℚ) : List ℚ := g.set i (g.getD i 0 + a)

/-- The inclusive integer range `lo..hi` of a JS `for` loop (empty when
`lo > hi`). -/
def intRange (lo hi : ℤ) : List ℤ :=
  (List.range (hi + 1 - lo).toNat).map fun k => lo + (k : ℤ)

/-- The values taken by `for (let d = -r; d <= r; d++)` when `r` is a JS
number: `-r, -r + 1, ...` while `≤ r` (non-integer when `r` is). -/
def qRange (r : ℚ) : List ℚ :=
  if 0 ≤ r then (List.range (⌊2 * r⌋.toNat + 1)).map fun k => -r + (k : ℚ) else []

/-- Reading a JS typed array at an arbitrary numeric index: a value only
for a nonnegative integral in-range index, else `undefined`. -/
def jsGridGet (g : List ℚ) (q : ℚ) : Option ℚ :=
  if q.den = 1 ∧ 0 ≤ q.num ∧ q.num < g.length then some (g.getD q.num.toNat 0) else none

/-- Writing a JS typed array at an arbitrary numeric index: ignored
unless the index is a nonnegative integral in-range one. -/
def jsGridSet (g : List ℚ) (q : ℚ) (v : ℚ) : List ℚ :=
  if q.den = 1 ∧ 0 ≤ q.num ∧ q.num < g.length then g.set q.num.toNat v else g

/-- Whether the mask blocks grid cell `(gx, gy)`: the cell centre mapped
to canvas pixels reads `0` (reads outside the mask array are `undefined`
and never equal `0`). -/
def maskBlockedAtGridCoords (s : State) (gx gy : ℤ) : Prop :=
  s.maskData (⌊(gy : ℚ) * (1 / s.gridScale)⌋ * s.width + ⌊(gx : ℚ) * (1 / s.gridScale)⌋)
    = some 0

instance (s : State) (gx gy : ℤ) : Decidable (maskBlockedAtGridCoords s gx gy) := by
  unfold maskBlockedAtGridCoords; infer_instance

/-- The injection of one smart-emitter disc cell: top the cell up by `dt
* pumpRate`, clamped to the 2.5 fill ceiling, only when below it. -/
def smartInjectCell (dt pumpRate : ℚ) (g : List ℚ) (idx : ℤ) : List ℚ :=
  if 0 ≤ idx ∧ idx < (g.length : ℤ) then
    let n := idx.toNat
    let v := g.getD n 0
    if v < 5/2 then
      let v' := v + dt * pumpRate
      g.set n (if v' > 5/2 then 5/2 else v')
    else g
  else g

/-- The `(pumpRate, radiusBase)` of a smart emitter of the given age: a
heartbeat pulse for blood, an aggressive constant source otherwise. -/
def smartPumpRadius (M : JsMath) (s : State) (age : ℚ) : ℚ × ℚ :=
  let radiusBase : ℚ := 12 * s.gridScale
  if s.material = "blood" then
    let period : ℚ := 8/10
    let phase := jsMod age period / period
    let pulse := M.pow (M.exp (-8 * phase)) 2
    (200 + 1000 * pulse, radiusBase * (1 + pulse * (1/2)))
  else (500, radiusBase)

/-- The smart-mode emitter pass of `updateSmartExpansion`: ages each
smart emitter (never removing it), wanders the injection centre by fbm
and injects the pump disc into the next-grid buffer; iterated from the
last emitter down to the first. -/
def smartEmitterPhase (M : JsMath) (s : State) (dt : ℚ) :
    List Emitter → List ℚ → List Emitter × List ℚ
  | [], g => ([], g)
  | e :: rest, g =>
    let (rest', g') := smartEmitterPhase M s dt rest g
    if ¬ (e.active = true ∧ e.type = "smart") then (e :: rest', g')
    else
      let age := e.age + dt
      let wander := fbm M s.noiseOffset s.poolingRandomness (age * 5) 100 4
      let ex := e.x + M.cos (wander * jsPI) * 10
      let ey := e.y + M.sin (wander * jsPI) * 10
      let gx := ⌊ex * s.gridScale⌋
      let gy := ⌊ey * s.gridScale⌋
      let pr := smartPumpRadius M s age
      let r := ⌈pr.2⌉
      let g'' := ((intRange (-r) r).flatMap fun j =>
          (intRange (-r) r).map fun i => (j, i)).foldl
        (fun g ji =>
          if ji.2 * ji.2 + ji.1 * ji.1 ≤ r * r then
            smartInjectCell dt pr.1 g ((gy + ji.1) * (s.gridWidth : ℤ) + (gx + ji.2))
          else g) g'
      ({ e with age := age } :: rest', g'')

/-- The flow a smart-expansion source cell sends one neighbour: `none`
models the `continue` paths (not lower, mask-blocked target, tension
barrier); a blended active-expansion / equalization amount otherwise. -/
def smartFlux (M : JsMath) (s : State) (baseSpeed permPower : ℚ) (grid : List ℚ)
    (val : ℚ) (nIdx : ℕ) (nx ny : ℤ) : Option ℚ :=
  let nVal := grid.getD nIdx 0
  if ¬ (val > nVal) then none
  else if s.hasMask = true ∧ maskBlockedAtGridCoords s nx ny then none
  else
    let noiseVal := s.permeabilityMap.getD nIdx 0
    let perm := M.pow noiseVal permPower
    let tensionLimit := s.surfaceTension * (1/100)
    if nVal < 1/1000 ∧ val < tensionLimit ∧ perm < 3/10 then none
    else if nVal < val * (95/100) then
      let f := baseSpeed * (2/10 + perm * (15/10))
      some (if nVal < 5/100 then f * (25/10) else f)
    else some ((val - nVal) * baseSpeed)

/-- Apply the positive fluxes of one source cell, each scaled by
`scaleF` and applied in order: the neighbour gains the amount and the
source loses it. -/
def applyFluxes (next : List ℚ) (idx : ℕ) (apps : List (ℕ × ℚ)) (scaleF : ℚ) : List ℚ :=
  match apps with
  | [] => next
  | na :: rest =>
    applyFluxes (bump (bump next na.1 (na.2 * scaleF)) idx (-(na.2 * scaleF))) idx rest scaleF

/-- Keep the `(neighbour, flux)` pairs whose computed flux is positive
(only those are applied). -/
def positiveFluxes (l : List (ℕ × Option ℚ)) : List (ℕ × ℚ) :=
  l.filterMap fun nf => nf.2.bind fun f => if f > 0 then some (nf.1, f) else none

/-- One interior cell of the smart-expansion diffusion pass: threshold
gate, mask zeroing of blocked sources, the four neighbour fluxes
(reading the pre-step grid), proportional scale-down when the total
exceeds the cell's mass, and the transfers into the next-grid buffer. -/
def smartCell (M : JsMath) (s : State) (dt : ℚ) (grid next : List ℚ) (xy : ℕ × ℕ) :
    List ℚ :=
  let x := xy.1
  let y := xy.2
  let w := s.gridWidth
  let idx := y * w + x
  let val := grid.getD idx 0
  if ¬ (val > 1/200) then next
  else if s.hasMask = true ∧ maskBlockedAtGridCoords s x y then next.set idx 0
  else
    let permPower := 3 * (11/10 - s.poolingRandomness)
    let baseSpeed := 40 * dt
    let f₀ := smartFlux M s baseSpeed permPower grid val (idx - w) x ((y : ℤ) - 1)
    let f₁ := smartFlux M s baseSpeed permPower grid val (idx + w) x ((y : ℤ) + 1)
    let f₂ := smartFlux M s baseSpeed permPower grid val (idx - 1) ((x : ℤ) - 1) y
    let f₃ := smartFlux M s baseSpeed permPower grid val (idx + 1) ((x : ℤ) + 1) y
    let totalFlux := f₀.getD 0 + f₁.getD 0 + f₂.getD 0 + f₃.getD 0
    let scaleF := if totalFlux > val then val / totalFlux else 1
    applyFluxes next idx
      (positiveFluxes [(idx - w, f₀), (idx + w, f₁), (idx - 1, f₂), (idx + 1, f₃)]) scaleF

/-- The interior cells `(x, y)` with `1 ≤ x < w - 1`, `1 ≤ y < h - 1` in
the scan order of the diffusion loops (`y` outer, `x` inner). -/
def interiorCells (w h : ℕ) : List (ℕ × ℕ) :=
  (List.range' 1 (h - 2)).flatMap fun y => (List.range' 1 (w - 2)).map fun x => (x, y)

/-- `updateSmartExpansion(dt)`: next-grid starts as a copy of the grid,
smart emitters inject, the diffusion pass runs over interior cells
reading the pre-step grid, and the buffer is copied back. -/
def updateSmartExpansion (M : JsMath) (s : State) (dt : ℚ) : State :=
  let ep := smartEmitterPhase M s dt s.emitters s.grid
  let next := (interiorCells s.gridWidth s.gridHeight).foldl
    (smartCell M s dt s.grid) ep.2
  { s with emitters := ep.1, grid := next }

/-- One disc cell of an experimental emitter's injection: inside the
radius the cell is topped up toward the 3.0 fill ceiling, skipping
out-of-range and mask-blocked cells. -/
def expInject (s : State) (dt : ℚ) (gx gy : ℤ) (g : List ℚ) (di : ℤ × ℤ) : List ℚ :=
  let flowRate : ℚ := 120
  let r : ℤ := 3
  if di.2 * di.2 + di.1 * di.1 ≤ r * r then
    let idx := (gy + di.1) * (s.gridWidth : ℤ) + (gx + di.2)
    if 0 ≤ idx ∧ idx < (g.length : ℤ) then
      let mx := ⌊((gx + di.2 : ℤ) : ℚ) * (1 / s.gridScale)⌋
      let my := ⌊((gy + di.1 : ℤ) : ℚ) * (1 / s.gridScale)⌋
      let midx := my * s.width + mx
      if s.hasMask = true ∧ midx < s.width * s.height ∧ s.maskData midx = some 0
      then g
      else
        let n := idx.toNat
        g.set n (min 3 (g.getD n 0 + flowRate * dt * (2/10)))
    else g
  else g

/-- The experimental-mode emitter pass: ages each experimental emitter
(never removing it) and injects a radius-3 disc, clamped at the 3.0 fill
ceiling, respecting the mask. -/
def expEmitterPhase (s : State) (dt : ℚ) :
    List Emitter → List ℚ → List Emitter × List ℚ
  | [], g => ([], g)
  | e :: rest, g =>
    let (rest', g') := expEmitterPhase s dt rest g
    if ¬ (e.active = true ∧ e.type = "experimental") then (e :: rest', g')
    else
      let age := e.age + dt
      let gx := ⌊e.x * s.gridScale⌋
      let gy := ⌊e.y * s.gridScale⌋
      let r : ℤ := 3
      let g'' := ((intRange (-r) r).flatMap fun dy =>
          (intRange (-r) r).map fun dx => (dy, dx)).foldl (expInject s dt gx gy) g'
      ({ e with age := age } :: rest', g'')

/-- The neighbour-add pass of an experimental cell: each computed flow
whose scaled value is positive is added to its neighbour, in order. -/
def addFlows (g : List ℚ) (flows : List (ℕ × Option ℚ)) (scaleF : ℚ) : List ℚ :=
  match flows with
  | [] => g
  | nf :: rest =>
    let g' := match nf.2 with
      | some f => if f * scaleF > 0 then bump g nf.1 (f * scaleF) else g
      | none => g
    addFlows g' rest scaleF

/-- The tail of an experimental cell once its total outflow is known to
be positive: scale the flows down proportionally when the total exceeds
the cell's mass, subtract the (capped) total from the source in one go,
and add each positive scaled flow to its neighbour. -/
def expCellApply (next : List ℚ) (idx : ℕ) (flows : List (ℕ × Option ℚ))
    (val totalFlow : ℚ) : List ℚ :=
  let scaleF := if totalFlow > val then val / totalFlow else 1
  let effTotal := if totalFlow > val then val else totalFlow
  addFlows (bump next idx (-effTotal)) flows scaleF

/-- The flow an experimental source cell sends one neighbour: skipped for
mask-blocked targets; `diff * flowSpeed` for strictly lower neighbours. -/
def expFlux (s : State) (flowSpeed : ℚ) (grid : List ℚ) (val : ℚ) (nIdx : ℕ)
    (nx ny : ℤ) : Option ℚ :=
  if s.hasMask = true ∧ maskBlockedAtGridCoords s nx ny then none
  else
    let diff := val - grid.getD nIdx 0
    if diff > 0 then some (diff * flowSpeed) else none

/-- One interior cell of the experimental diffusion pass: neighbour
order left, right, up, down; the total outflow is capped at the cell's
mass and subtracted in one go; each positive (scaled) flow is added to
its neighbour. -/
def expCell (s : State) (dt : ℚ) (grid next : List ℚ) (xy : ℕ × ℕ) : List ℚ :=
  let x := xy.1
  let y := xy.2
  let w := s.gridWidth
  let idx := y * w + x
  let val := grid.getD idx 0
  if val ≤ 1/1000 then next
  else if s.hasMask = true ∧ maskBlockedAtGridCoords s x y then next.set idx 0
  else
    let flowSpeed := 200 * dt * (1 - s.viscosity * (1/2))
    let f₀ := expFlux s flowSpeed grid val (idx - 1) ((x : ℤ) - 1) y
    let f₁ := expFlux s flowSpeed grid val (idx + 1) ((x : ℤ) + 1) y
    let f₂ := expFlux s flowSpeed grid val (idx - w) x ((y : ℤ) - 1)
    let f₃ := expFlux s flowSpeed grid val (idx + w) x ((y : ℤ) + 1)
    let totalFlow := f₀.getD 0 + f₁.getD 0 + f₂.getD 0 + f₃.getD 0
    if ¬ (totalFlow > 0) then next
    else expCellApply next idx [(idx - 1, f₀), (idx + 1, f₁), (idx - w, f₂), (idx + w, f₃)]
      val totalFlow

/-- `updateExperimental(dt)`: emitter injection into the copied buffer,
then the simplified cellular-automaton flow, then copy-back. -/
def updateExperimental (s : State) (dt : ℚ) : State :=
  let ep := expEmitterPhase s dt s.emitters s.grid
  let next := (interiorCells s.gridWidth s.gridHeight).foldl
    (expCell s dt s.grid) ep.2
  { s with emitters := ep.1, grid := next }

/-- One projected cell of a tlou emitter: bounds and mask gates, inverse
rotation into the unit square, sampling of the animated sub-UV frame,
and the lerp of the grid height toward the sampled target (the grid is
mutated in place; non-integral computed indices hit no typed-array
element, so the read is `undefined` and nothing happens). -/
def tlouCell (s : State) (fd : FormationData) (dt age radius : ℚ) (gx gy : ℤ)
    (cosR sinR : ℚ) (g : List ℚ) (dydx : ℚ × ℚ) : List ℚ :=
  let dy := dydx.1
  let dx := dydx.2
  let w := s.gridWidth
  let gridIdx := ((gy : ℚ) + dy) * (w : ℚ) + ((gx : ℚ) + dx)
  if gridIdx < 0 ∨ gridIdx ≥ (w : ℚ) * (s.gridHeight : ℚ) then g
  else
    let mx := ⌊((gx : ℚ) + dx) * (1 / s.gridScale)⌋
    let my := ⌊((gy : ℚ) + dy) * (1 / s.gridScale)⌋
    let mIdx := my * s.width + mx
    if s.hasMask = true ∧ mIdx < s.width * s.height ∧ s.maskData mIdx = some 0 then g
    else
      let lx := dx / radius
      let ly := dy / radius
      let rx := lx * cosR - ly * sinR
      let ry := lx * sinR + ly * cosR
      if rx < -1 ∨ rx > 1 ∨ ry < -1 ∨ ry > 1 then g
      else
        let u := rx * (1/2) + 1/2
        let v := ry * (1/2) + 1/2
        let currentFrame : ℤ := min 35 ⌊age * 15⌋
        let fRow : ℤ := ⌊(currentFrame : ℚ) / 6⌋
        let fCol : ℚ := jsMod (currentFrame : ℚ) 6
        let subW := (fd.width : ℚ) / 6
        let subH := (fd.height : ℚ) / 6
        let animTexX := min (fd.width - 1) (max 0 ⌊(fCol + u) * subW⌋)
        let animTexY := min (fd.height - 1) (max 0 ⌊((fRow : ℚ) + v) * subH⌋)
        let animPIdx := (animTexY * fd.width + animTexX) * 4
        if animPIdx < fd.len then
          let shapeVal := (fd.data animPIdx : ℚ) / 255
          if shapeVal > 1/10 then
            let targetHeight := shapeVal * (25/10)
            match jsGridGet g gridIdx with
            | some current =>
              if current < targetHeight then
                jsGridSet g gridIdx (current + (targetHeight - current) * 10 * dt)
              else g
            | none => g
          else g
        else g

/-- The tlou emitter pass: ages each tlou emitter; once past its
duration it is skipped (but kept); otherwise its animated frame is
projected onto the grid. -/
def tlouEmitterPhase (M : JsMath) (s : State) (dt : ℚ) (fd : FormationData) :
    List Emitter → List ℚ → List Emitter × List ℚ
  | [], g => ([], g)
  | e :: rest, g =>
    let (rest', g') := tlouEmitterPhase M s dt fd rest g
    if ¬ (e.active = true ∧ e.type = "tlou") then (e :: rest', g')
    else
      let age := e.age + dt
      if age > e.duration then ({ e with age := age } :: rest', g')
      else
        let radius := 40 * e.scale
        let gx := ⌊e.x * s.gridScale⌋
        let gy := ⌊e.y * s.gridScale⌋
        let cosR := M.cos e.rotation
        let sinR := M.sin e.rotation
        let g'' := ((qRange radius).flatMap fun dy =>
            (qRange radius).map fun dx => (dy, dx)).foldl
          (tlouCell s fd dt age radius gx gy cosR sinR) g'
        ({ e with age := age } :: rest', g'')

/-- `updateTLOU(dt)`: nothing at all happens (including emitter aging)
without decoded formation data. -/
def updateTLOU (M : JsMath) (s : State) (dt : ℚ) : State :=
  match s.formationData with
  | none => s
  | some fd =>
    let ep := tlouEmitterPhase M s dt fd s.emitters s.grid
    { s with emitters := ep.1, grid := ep.2 }

/-- Physics of one active drip head in `updateVectorDrip`: gravity,
noise meander (keyed off the current PRNG seed without consuming it),
damping, movement, width loss, mask kill, exhaustion kill, probabilistic
branching, floor kill.  Returns the mutated head, the pushed branch (if
any) and the seed. -/
def vectorDripHead (M : JsMath) (s : State) (dt : ℚ) (head : DripHead) (seed : ℤ) :
    DripHead × List DripHead × ℤ :=
  let head := { head with prevX := head.x, prevY := head.y }
  let head := { head with vy := head.vy + s.gravityStrength * 10 * dt }
  let n := noise M s.noiseOffset (head.x * (5/100)) (head.y * (5/100) + (s.seed : ℚ))
  let meanderForce := (n - 1/2) * 500 * (1 - s.viscosity)
  let head := { head with vx := (head.vx + meanderForce * dt) * (9/10) }
  let head := { head with x := head.x + head.vx * dt, y := head.y + head.vy * dt }
  let speed := M.sqrt (head.vx * head.vx + head.vy * head.vy)
  let loss := (5 + speed * (5/100)) * dt * (8/10)
  let head := { head with width := head.width - loss }
  let head :=
    if s.hasMask = true then
      let mx := ⌊head.x⌋
      let my := ⌊head.y⌋
      if (0 ≤ mx ∧ mx < s.width ∧ 0 ≤ my ∧ my < s.height) ∧
          s.maskData (my * s.width + mx) = some 0 then
        { head with active := false }
      else head
    else head
  -- width > 0.5 draws the trail (canvas-only); otherwise the head dies
  let head := if ¬ (head.width > 1/2) then { head with active := false } else head
  let (head, pushed, seed) :=
    if head.width > 3 then
      let (r, seed') := jsRandom M seed
      if r < 2/100 then
        let newW := head.width * (6/10)
        let head := { head with width := head.width * (7/10) }
        let (rb, seed'') := jsRandom M seed'
        let branch : DripHead :=
          { x := head.x, y := head.y, prevX := head.x, prevY := head.y,
            vx := head.vx + (rb - 1/2) * 50, vy := head.vy * (8/10), width := newW }
        (head, [branch], seed'')
      else (head, [], seed')
    else (head, [], seed)
  let head := if head.y > (s.height : ℚ) then { head with active := false } else head
  (head, pushed, seed)

/-- The drip-head loop of `updateVectorDrip`, iterating from the last
head down to the first, splicing heads that were already inactive and
collecting branch pushes at the end of the array. -/
def vectorDripPhase (M : JsMath) (s : State) (dt : ℚ) :
    List DripHead → ℤ → List DripHead × List DripHead × ℤ
  | [], seed => ([], [], seed)
  | h :: rest, seed =>
    let (rest', pushed, seed') := vectorDripPhase M s dt rest seed
    if h.active = false then (rest', pushed, seed')
    else
      let (h', newHs, seed'') := vectorDripHead M s dt h seed'
      (h' :: rest', pushed ++ newHs, seed'')

/-- `updateVectorDrip(dt)`. -/
def updateVectorDrip (M : JsMath) (s : State) (dt : ℚ) : State :=
  let res := vectorDripPhase M s dt s.dripHeads s.seed
  { s with dripHeads := res.1 ++ res.2.1, seed := res.2.2 }

/-- `step(dt)`: the emitter loop first, then the mode dispatch — the
grid substrates return immediately; otherwise floor-like modes run the
repulsion solver and every mode runs the integration/cull loop. -/
def step (M : JsMath) (s : State) (dt : ℚ) : State :=
  let ep := emitterPhase M s dt s.emitters s.particles s.seed
  let s := { s with emitters := ep.1, particles := ep.2.1, seed := ep.2.2 }
  if s.mode = "experimental" then updateExperimental s dt
  else if s.mode = "smart" then updateSmartExpansion M s dt
  else if s.mode = "vector-drip" then updateVectorDrip M s dt
  else if s.mode = "tlou" then updateTLOU M s dt
  else
    let s := if s.mode = "floor" ∨ s.mode = "one-click" then applyRepulsion M s dt else s
    let res := integratePhase M s dt s.particles s.wetMap s.seed
    { s with particles := res.1, wetMap := res.2.1, seed := res.2.2 }

/-- `update(dt)`: the fixed-substep outer entry point. -/
def update (M : JsMath) (s : State) (dt : ℚ) : State :=
  if s.paused then s
  else
    let steps := ⌊s.substeps⌋
    let stepDt := dt * s.timeScale / (steps : ℚ)
    (fun st => step M st stepDt)^[steps.toNat] s

/-- `spawn(x, y)`: the mode dispatch. -/
def spawn (M : JsMath) (s : State) (x y : ℚ) : State :=
  if s.mode = "experimental" then spawnExperimental s x y
  else if s.mode = "smart" then spawnSmart s x y
  else if s.mode = "vector-drip" then spawnVectorDrip M s x y
  else if s.mode = "tlou" then spawnTLOU M s x y
  else if s.spawnMode = "drop" then spawnBlob M s x y
  else spawnSpray M s x y

/-! ### Predicates, concrete math libraries and scenario states -/

/-- The observation of a particle with the velocity blanked out. -/
def nonVelocityFields (p : Particle) :=
  (p.x, p.y, p.prevX, p.prevY, p.originX, p.originY, p.mass, p.initialMass,
   p.color, p.active, p.life, p.pool, p.isMist, p.isSplatter)

/-- Every cell of a grid (and the out-of-range default) is nonnegative. -/
def GridNonneg (g : List ℚ) : Prop := ∀ j : ℕ, 0 ≤ g.getD j 0

/-- Entries of a grid bounded above by a constant. -/
def GridLe (g : List ℚ) (c : ℚ) : Prop := ∀ j : ℕ, g.getD j 0 ≤ c

/-- A concrete, computable instantiation of the host math library, for
evaluating the embedding at specific inputs. -/
def zeroJsMath : JsMath where
  sin := fun _ => 0
  cos := fun _ => 0
  exp := fun _ => 1
  sqrt := fun q => if 0 < q then 1 else 0
  pow := fun _ _ => 0
  sin_mem := fun _ => by norm_num
  cos_mem := fun _ => by norm_num
  exp_nonneg := fun _ => by norm_num
  sqrt_nonneg := fun q => by dsimp only; split_ifs <;> norm_num
  sqrt_pos := fun q hq => by dsimp only; rw [if_pos hq]; norm_num
  pow_nonneg := fun _ _ _ => le_refl 0

/-- A 12×12-canvas engine state in experimental mode: 3×3 grid holding
4.0 in the centre cell, one experimental emitter over that cell, no
mask. -/
def cexC10State : State where
  width := 12
  height := 12
  seed := 1337
  wetMap := fun _ => 0
  particles := []
  maxParticles := 6000
  mode := "experimental"
  activeCaliber := "9mm"
  spawnMode := "spray"
  viscosity := 0
  density := 50
  gravityStrength := 1
  spawnRate := 30
  spawnVelocity := 50
  spawnDirection := 0
  spreadAngle := 30
  particleSize := 10
  color := "#ff0000"
  opacity := 9/10
  turbulence := 0
  noiseOffset := 0
  emitters := [{ x := 6, y := 6, age := 0, duration := 300, type := "experimental" }]
  dripHeads := []
  maskData := fun _ => none
  hasMask := false
  material := "custom"
  surfaceTension := 3/10
  timeScale := 1
  substeps := 3
  paused := false
  particleLifetime := 10
  infiniteLifetime := false
  sizeRandomness := 1/2
  poolingRandomness := 1/5
  gridScale := 1/4
  gridCellSize := 20
  gridWidth := 3
  gridHeight := 3
  grid := [0, 0, 0, 0, 4, 0, 0, 0, 0]
  roughnessMap := List.replicate 9 0
  permeabilityMap := List.replicate 9 0
  formationData := none

/-- A generic particle for concrete scenarios. -/
def dummyP : Particle :=
  { x := 6, y := 6, prevX := 6, prevY := 6, vx := 0, vy := 0,
    mass := 1, initialMass := 1, color := ⟨255, 0, 0⟩, life := 10 }

/-- A two-slot wall-mode store at capacity. -/
def cexC4State : State :=
  { mkSimulator zeroJsMath 12 12 0 with
    maxParticles := 2, particles := [dummyP, { dummyP with x := 7 }], spawnRate := 2 }

/-- A fresh ballistic-mode engine (caliber "9mm", empty store). -/
def cexC5State : State := { mkSimulator zeroJsMath 12 12 0 with mode := "ballistic" }

/-- A floor-mode engine whose store already sits at the 6000-particle
capacity. -/
def cexC3State : State :=
  { mkSimulator zeroJsMath 12 12 0 with
    mode := "floor", particles := List.replicate 6000 dummyP }

/-- A wall-mode engine holding one particle far above the canvas. -/
def cexC6State : State :=
  { mkSimulator zeroJsMath 12 12 0 with
    particles := [{ dummyP with y := -1000 }] }

/-- A smart-mode engine holding a smart grid emitter already aged past
its duration. -/
def cexC7State : State :=
  { mkSimulator zeroJsMath 12 12 0 with
    mode := "smart",
    emitters := [{ x := 6, y := 6, age := 100000, duration := 99999, type := "smart" }] }

/-- A concrete math library whose sine jumps from 0 to 1 at 108000:
below the threshold every engine-PRNG draw is 0, and the meander-noise
argument of a drip head crosses the threshold exactly when the
(snapshot-omitted) noise offset moves from 0 to 500. -/
def cexMath : JsMath where
  sin := fun q => if q < mkRat 108000 1 then 0 else 1
  cos := fun _ => 1
  exp := fun _ => 1
  sqrt := fun q => if 0 < q then 1 else 0
  pow := fun _ _ => 0
  sin_mem := fun q => by dsimp only; split_ifs <;> norm_num
  cos_mem := fun _ => by norm_num
  exp_nonneg := fun _ => by norm_num
  sqrt_nonneg := fun q => by dsimp only; split_ifs <;> norm_num
  sqrt_pos := fun q hq => by dsimp only; rw [if_pos hq]; norm_num
  pow_nonneg := fun _ _ _ => le_refl 0

/-- The engine as the recorder sees it: entropy 0 at construction and at
the `setMode` reset. -/
def cexC1RunA : State := setMode cexMath (mkSimulator cexMath 12 12 0) "vector-drip" 0

/-- The engine as a replay sees it: the non-deterministic draws came out
as 1/2 instead, which `getState()` does not record. -/
def cexC1RunB : State :=
  setMode cexMath (mkSimulator cexMath 12 12 (1/2)) "vector-drip" (1/2)

/-! ### Helper lemmas about grid cell updates -/

theorem bump_length (g : List ℚ) (i : ℕ) (a : ℚ) : (bump g i a).length = g.length := by
  simp [bump]

theorem bump_sum {g : List ℚ} {i : ℕ} (a : ℚ) (h : i < g.length) :
    (bump g i a).sum = g.sum + a := by
  rw [bump, List.sum_set']
  rw [dif_pos h]
  have hg : g.getD i 0 = g[i] := by
    simp [List.getD_eq_getElem?_getD, List.getElem?_eq_getElem h]
  rw [hg]; ring

theorem bump_getD_self {g : List ℚ} {i : ℕ} {a : ℚ} (h : i < g.length) :
    (bump g i a).getD i 0 = g.getD i 0 + a := by
  simp [bump, List.getD_eq_getElem?_getD, List.getElem?_set_self h]

theorem bump_getD_other {g : List ℚ} {i j : ℕ} {a : ℚ} (h : i ≠ j) :
    (bump g i a).getD j 0 = g.getD j 0 := by
  simp [bump, List.getD_eq_getElem?_getD, List.getElem?_set_ne h]

theorem getD_set_other {g : List ℚ} {i j : ℕ} {v : ℚ} (h : i ≠ j) :
    (g.set i v).getD j 0 = g.getD j 0 := by
  simp [List.getD_eq_getElem?_getD, List.getElem?_set_ne h]

theorem bump_getD_le {g : List ℚ} {i j : ℕ} {a : ℚ} (ha : 0 ≤ a) :
    g.getD j 0 ≤ (bump g i a).getD j 0 := by
  by_cases hij : i = j
  · subst hij
    by_cases hlen : i < g.length
    · rw [bump_getD_self hlen]; linarith
    · rw [bump, List.set_eq_of_length_le (le_of_not_lt hlen)]
  · rw [bump_getD_other hij]

/-! ### C8: friction multipliers are never negative -/

/-- C8.  In every mode and for every `dt`, viscosity and wetness value,
the friction multiplier a particle's velocity is scaled by during a step
is nonnegative: the wall/ballistic law is clamped at zero, the
floor law is a nonnegative exponential times 0.99 or 0.80, and the
one-click damping constant is 0.85. -/
theorem friction_multipliers_nonneg (M : JsMath) (s : State) (dt nVal : ℚ)
    (isSplatter isMist : Bool) (wetVal : ℕ) :
    0 ≤ wallFriction s dt isSplatter isMist wetVal ∧
    0 ≤ floorFriction M s dt nVal ∧
    0 ≤ oneClickDamping := by
  have clamp : ∀ q : ℚ, 0 ≤ if q < 0 then 0 else q := by
    intro q
    split_ifs with h
    · exact le_refl 0
    · exact le_of_not_lt h
  refine ⟨clamp _, ?_, by norm_num [oneClickDamping]⟩
  unfold floorFriction
  have h := M.exp_nonneg (-(max (1/10) s.viscosity) * 2 * dt)
  split_ifs <;> positivity

/-! ### C9: the repulsion solver only changes velocities -/

theorem applyRepulsionParticle_frame (M : JsMath) (s : State) (dt : ℚ)
    (ps : List Particle) (cols : ℤ) (i : ℕ) (p : Particle) :
    nonVelocityFields (applyRepulsionParticle M s dt ps cols i p) = nonVelocityFields p := by
  unfold applyRepulsionParticle
  split_ifs <;> rfl

/-- C9.  `applyRepulsion(dt)` modifies only particle velocities: the
particle count is unchanged, every particle keeps its position, previous
position, origin, mass, colour, life and flags, and every other state
component (including the PRNG seed) is untouched. -/
theorem applyRepulsion_only_velocities (M : JsMath) (s : State) (dt : ℚ) :
    (applyRepulsion M s dt).particles.length = s.particles.length ∧
    (∀ i : ℕ, ((applyRepulsion M s dt).particles[i]?).map nonVelocityFields
      = (s.particles[i]?).map nonVelocityFields) ∧
    (applyRepulsion M s dt).seed = s.seed ∧
    (applyRepulsion M s dt).emitters = s.emitters ∧
    (applyRepulsion M s dt).grid = s.grid ∧
    (applyRepulsion M s dt).wetMap = s.wetMap := by
  refine ⟨by simp [applyRepulsion], ?_, rfl, rfl, rfl, rfl⟩
  intro i
  show ((s.particles.enum.map _)[i]?).map _ = _
  rw [List.getElem?_map, List.getElem?_enum]
  cases h : s.particles[i]? with
  | none => rfl
  | some p => simp [applyRepulsionParticle_frame]

/-! ### Flux-application lemmas -/

theorem applyFluxes_length (g : List ℚ) (idx : ℕ) (apps : List (ℕ × ℚ)) (scaleF : ℚ) :
    (applyFluxes g idx apps scaleF).length = g.length := by
  induction apps generalizing g with
  | nil => rfl
  | cons na rest ih => rw [applyFluxes, ih, bump_length, bump_length]

theorem applyFluxes_sum {g : List ℚ} {idx : ℕ} {apps : List (ℕ × ℚ)} {scaleF : ℚ}
    (h1 : idx < g.length) (h2 : ∀ p ∈ apps, p.1 < g.length) :
    (applyFluxes g idx apps scaleF).sum = g.sum := by
  induction apps generalizing g with
  | nil => rfl
  | cons na rest ih =>
    rw [applyFluxes]
    have hb1 : (bump g na.1 (na.2 * scaleF)).length = g.length := bump_length ..
    have hb2 : (bump (bump g na.1 (na.2 * scaleF)) idx (-(na.2 * scaleF))).length
        = g.length := by rw [bump_length, hb1]
    rw [ih (by rw [hb2]; exact h1) (fun p hp => by rw [hb2]; exact h2 p (by simp [hp]))]
    rw [bump_sum _ (by rw [hb1]; exact h1), bump_sum _ (h2 na (by simp))]
    ring

theorem applyFluxes_getD_src {g : List ℚ} {idx : ℕ} {apps : List (ℕ × ℚ)} {scaleF : ℚ}
    (hne : ∀ p ∈ apps, p.1 ≠ idx) (h : idx < g.length) :
    (applyFluxes g idx apps scaleF).getD idx 0
      = g.getD idx 0 - (apps.map Prod.snd).sum * scaleF := by
  induction apps generalizing g with
  | nil => simp [applyFluxes]
  | cons na rest ih =>
    rw [applyFluxes]
    have hb1 : (bump g na.1 (na.2 * scaleF)).length = g.length := bump_length ..
    have hb2 : (bump (bump g na.1 (na.2 * scaleF)) idx (-(na.2 * scaleF))).length
        = g.length := by rw [bump_length, hb1]
    rw [ih (fun p hp => hne p (by simp [hp])) (by rw [hb2]; exact h)]
    rw [bump_getD_self (by rw [hb1]; exact h), bump_getD_other (hne na (by simp))]
    simp; ring

theorem applyFluxes_getD_le {g : List ℚ} {idx j : ℕ} {apps : List (ℕ × ℚ)} {scaleF : ℚ}
    (hj : j ≠ idx) (hpos : ∀ p ∈ apps, 0 ≤ p.2 * scaleF) :
    g.getD j 0 ≤ (applyFluxes g idx apps scaleF).getD j 0 := by
  induction apps generalizing g with
  | nil => exact le_refl _
  | cons na rest ih =>
    rw [applyFluxes]
    refine le_trans ?_ (ih (fun p hp => hpos p (by simp [hp])))
    rw [bump_getD_other (fun he => hj he.symm)]
    exact bump_getD_le (hpos na (by simp))

theorem applyFluxes_nonneg {g : List ℚ} {idx : ℕ} {apps : List (ℕ × ℚ)} {scaleF : ℚ}
    (h : idx < g.length) (hne : ∀ p ∈ apps, p.1 ≠ idx)
    (hpos : ∀ p ∈ apps, 0 ≤ p.2 * scaleF)
    (hsum : (apps.map Prod.snd).sum * scaleF ≤ g.getD idx 0)
    (hg : ∀ j, 0 ≤ g.getD j 0) :
    ∀ j, 0 ≤ (applyFluxes g idx apps scaleF).getD j 0 := by
  intro j
  by_cases hj : j = idx
  · subst hj
    rw [applyFluxes_getD_src hne h]
    linarith
  · exact le_trans (hg j) (applyFluxes_getD_le hj hpos)

theorem addFlows_length (g : List ℚ) (flows : List (ℕ × Option ℚ)) (scaleF : ℚ) :
    (addFlows g flows scaleF).length = g.length := by
  induction flows generalizing g with
  | nil => rfl
  | cons nf rest ih =>
    rw [addFlows]
    cases h : nf.2 with
    | none => simp only []; rw [ih]
    | some f =>
      simp only []
      split_ifs
      · rw [ih, bump_length]
      · rw [ih]

theorem addFlows_sum {g : List ℚ} {flows : List (ℕ × Option ℚ)} {scaleF : ℚ}
    (hpos : ∀ nf ∈ flows, ∀ f, nf.2 = some f → 0 < f) (hs : 0 < scaleF)
    (hr : ∀ nf ∈ flows, nf.1 < g.length) :
    (addFlows g flows scaleF).sum
      = g.sum + (flows.map fun nf => nf.2.getD 0).sum * scaleF := by
  induction flows generalizing g with
  | nil => simp [addFlows]
  | cons nf rest ih =>
    rw [addFlows]
    cases h : nf.2 with
    | none =>
      simp only []
      rw [ih (fun nf' h' f hf => hpos nf' (by simp [h']) f hf) (fun nf' h' => hr nf' (by simp [h']))]
      simp [h]
    | some f =>
      have hf : 0 < f := hpos nf (by simp) f h
      have happ : f * scaleF > 0 := mul_pos hf hs
      simp only [if_pos happ]
      rw [ih (fun nf' h' f' hf' => hpos nf' (by simp [h']) f' hf')
        (fun nf' h' => by rw [bump_length]; exact hr nf' (by simp [h']))]
      rw [bump_sum _ (hr nf (by simp))]
      simp [h]; ring

theorem addFlows_getD_le (g : List ℚ) (flows : List (ℕ × Option ℚ)) (scaleF : ℚ) (j : ℕ) :
    g.getD j 0 ≤ (addFlows g flows scaleF).getD j 0 := by
  induction flows generalizing g with
  | nil => exact le_refl _
  | cons nf rest ih =>
    rw [addFlows]
    cases h : nf.2 with
    | none => simp only []; exact ih g
    | some f =>
      simp only []
      split_ifs with happ
      · exact le_trans (bump_getD_le (le_of_lt happ)) (ih _)
      · exact ih g

/-! ### Interior-cell bookkeeping -/

theorem mem_interiorCells {w h x y : ℕ} (hc : (x, y) ∈ interiorCells w h) :
    1 ≤ x ∧ x + 1 < w ∧ 1 ≤ y ∧ y + 1 < h := by
  unfold interiorCells at hc
  rw [List.mem_flatMap] at hc
  obtain ⟨y', hy', hx⟩ := hc
  rw [List.mem_map] at hx
  obtain ⟨x', hx', he⟩ := hx
  obtain ⟨rfl, rfl⟩ := Prod.mk.injEq .. ▸ he
  rw [List.mem_range'_1] at hy' hx'
  omega

theorem interior_idx_lt {w h x y : ℕ} (_hx1 : 1 ≤ x) (hx2 : x + 1 < w)
    (_hy1 : 1 ≤ y) (hy2 : y + 1 < h) :
    y * w + x + w < w * h := by
  have h2 : (y + 2) * w ≤ h * w := Nat.mul_le_mul_right w (by omega)
  calc y * w + x + w < y * w + w + w := by omega
    _ = (y + 2) * w := by ring
    _ ≤ h * w := h2
    _ = w * h := Nat.mul_comm h w

theorem mem_positiveFluxes {l : List (ℕ × Option ℚ)} {p : ℕ × ℚ}
    (h : p ∈ positiveFluxes l) : (p.1, some p.2) ∈ l ∧ 0 < p.2 := by
  unfold positiveFluxes at h
  rw [List.mem_filterMap] at h
  obtain ⟨nf, hnf, he⟩ := h
  cases ho : nf.2 with
  | none => rw [ho] at he; simp at he
  | some f =>
    rw [ho] at he
    simp only [Option.some_bind] at he
    split_ifs at he with hf
    obtain rfl := Option.some.inj he
    exact ⟨by rw [← ho]; simpa using hnf, hf⟩

/-! ### C2: diffusion steps conserve the grid sum -/

theorem smartCell_length (M : JsMath) (s : State) (dt : ℚ) (grid next : List ℚ)
    (xy : ℕ × ℕ) : (smartCell M s dt grid next xy).length = next.length := by
  unfold smartCell
  dsimp only
  split_ifs <;> simp [applyFluxes_length]

theorem smartCell_sum {M : JsMath} {s : State} {dt : ℚ} {grid next : List ℚ}
    {xy : ℕ × ℕ} (hm : s.hasMask = false)
    (hlen : next.length = s.gridWidth * s.gridHeight)
    (hc : xy ∈ interiorCells s.gridWidth s.gridHeight) :
    (smartCell M s dt grid next xy).sum = next.sum := by
  obtain ⟨x, y⟩ := xy
  obtain ⟨hx1, hx2, hy1, hy2⟩ := mem_interiorCells hc
  have hwh := interior_idx_lt hx1 hx2 hy1 hy2
  unfold smartCell
  dsimp only
  split_ifs with h1 h2 h3
  all_goals try rfl
  all_goals try (rw [hm] at h2; simp at h2)
  all_goals
    exact applyFluxes_sum (by rw [hlen]; omega) (fun p hp => by
      have hmem := (mem_positiveFluxes hp).1
      rw [hlen]
      simp only [List.mem_cons, List.not_mem_nil, or_false, Prod.mk.injEq] at hmem
      rcases hmem with ⟨h, _⟩ | ⟨h, _⟩ | ⟨h, _⟩ | ⟨h, _⟩ <;> omega)

theorem foldl_smartCell_sum {M : JsMath} {s : State} {dt : ℚ} {grid : List ℚ}
    {cells : List (ℕ × ℕ)} {next : List ℚ} (hm : s.hasMask = false)
    (hlen : next.length = s.gridWidth * s.gridHeight)
    (hcells : ∀ c ∈ cells, c ∈ interiorCells s.gridWidth s.gridHeight) :
    (cells.foldl (smartCell M s dt grid) next).sum = next.sum := by
  induction cells generalizing next with
  | nil => rfl
  | cons c rest ih =>
    rw [List.foldl_cons]
    rw [ih (by rw [smartCell_length]; exact hlen) (fun c' hc' => hcells c' (by simp [hc']))]
    exact smartCell_sum hm hlen (hcells c (by simp))

theorem expFlux_some {s : State} {flowSpeed : ℚ} {grid : List ℚ} {val : ℚ} {nIdx : ℕ}
    {nx ny : ℤ} {f : ℚ} (h : expFlux s flowSpeed grid val nIdx nx ny = some f) :
    ∃ diff, 0 < diff ∧ f = diff * flowSpeed := by
  unfold expFlux at h
  by_cases hmask : s.hasMask = true ∧ maskBlockedAtGridCoords s nx ny
  · rw [if_pos hmask] at h
    exact absurd h (by simp)
  · rw [if_neg hmask] at h
    dsimp only at h
    by_cases hd : val - grid.getD nIdx 0 > 0
    · rw [if_pos hd] at h
      exact ⟨val - grid.getD nIdx 0, hd, (Option.some.inj h).symm⟩
    · rw [if_neg hd] at h
      exact absurd h (by simp)

theorem expCellApply_length (next : List ℚ) (idx : ℕ) (flows : List (ℕ × Option ℚ))
    (val totalFlow : ℚ) : (expCellApply next idx flows val totalFlow).length = next.length := by
  unfold expCellApply
  rw [addFlows_length, bump_length]

theorem expCell_length (s : State) (dt : ℚ) (grid next : List ℚ) (xy : ℕ × ℕ) :
    (expCell s dt grid next xy).length = next.length := by
  unfold expCell
  dsimp only
  split_ifs <;> simp [expCellApply_length]

theorem expCellApply_sum {next : List ℚ} {idx : ℕ} {flows : List (ℕ × Option ℚ)}
    {val totalFlow : ℚ}
    (hpos : ∀ nf ∈ flows, ∀ f, nf.2 = some f → 0 < f)
    (hr : ∀ nf ∈ flows, nf.1 < next.length) (hidx : idx < next.length)
    (hvalpos : 0 < val) (htf : 0 < totalFlow)
    (heq : (flows.map fun nf => nf.2.getD 0).sum = totalFlow) :
    (expCellApply next idx flows val totalFlow).sum = next.sum := by
  unfold expCellApply
  dsimp only
  have hspos : 0 < (if totalFlow > val then val / totalFlow else 1 : ℚ) := by
    split_ifs
    · exact div_pos hvalpos htf
    · norm_num
  rw [addFlows_sum hpos hspos (fun nf h => by rw [bump_length]; exact hr nf h)]
  rw [bump_sum _ hidx, heq]
  split_ifs with hgt
  · field_simp
  · ring

theorem expCell_sum {s : State} {dt : ℚ} {grid next : List ℚ}
    {xy : ℕ × ℕ} (hm : s.hasMask = false)
    (hlen : next.length = s.gridWidth * s.gridHeight)
    (hc : xy ∈ interiorCells s.gridWidth s.gridHeight) :
    (expCell s dt grid next xy).sum = next.sum := by
  obtain ⟨x, y⟩ := xy
  obtain ⟨hx1, hx2, hy1, hy2⟩ := mem_interiorCells hc
  have hwh := interior_idx_lt hx1 hx2 hy1 hy2
  unfold expCell
  dsimp only
  split_ifs with h1 h2 h3
  · rfl
  · rw [hm] at h2; simp at h2
  · rw [not_le] at h1
    set w := s.gridWidth with hw
    set idx := y * w + x with hidx
    set val := grid.getD idx 0 with hval
    set flowSpeed := 200 * dt * (1 - s.viscosity * (1/2)) with hfs
    set f₀ := expFlux s flowSpeed grid val (idx - 1) ((x : ℤ) - 1) y with hf₀
    set f₁ := expFlux s flowSpeed grid val (idx + 1) ((x : ℤ) + 1) y with hf₁
    set f₂ := expFlux s flowSpeed grid val (idx - w) (x : ℤ) ((y : ℤ) - 1) with hf₂
    set f₃ := expFlux s flowSpeed grid val (idx + w) (x : ℤ) ((y : ℤ) + 1) with hf₃
    set totalFlow := f₀.getD 0 + f₁.getD 0 + f₂.getD 0 + f₃.getD 0 with htot
    -- the flow speed must be positive, else every flow is nonpositive
    have hfspos : 0 < flowSpeed := by
      by_contra hv
      push_neg at hv
      have hle : ∀ o : Option ℚ, (∃ nIdx nx ny, o = expFlux s flowSpeed grid val nIdx nx ny) →
          o.getD 0 ≤ 0 := by
        rintro o ⟨nIdx, nx, ny, rfl⟩
        cases ho : expFlux s flowSpeed grid val nIdx nx ny with
        | none => simp
        | some f =>
          obtain ⟨diff, hd, rfl⟩ := expFlux_some ho
          simpa using mul_nonpos_of_nonneg_of_nonpos (le_of_lt hd) hv
      have h0 := hle f₀ ⟨_, _, _, hf₀⟩
      have hh1 := hle f₁ ⟨_, _, _, hf₁⟩
      have hh2 := hle f₂ ⟨_, _, _, hf₂⟩
      have hh3 := hle f₃ ⟨_, _, _, hf₃⟩
      linarith
    apply expCellApply_sum
    · intro nf hnf f hf
      simp only [List.mem_cons, List.not_mem_nil, or_false] at hnf
      rcases hnf with rfl | rfl | rfl | rfl <;>
        · obtain ⟨diff, hd, rfl⟩ := expFlux_some (by rw [← hf])
          exact mul_pos hd hfspos
    · intro nf hnf
      rw [hlen]
      simp only [List.mem_cons, List.not_mem_nil, or_false] at hnf
      rcases hnf with rfl | rfl | rfl | rfl <;> dsimp only <;> omega
    · rw [hlen]; omega
    · exact lt_trans (by norm_num) h1
    · exact h3
    · simp only [List.map_cons, List.map_nil, List.sum_cons, List.sum_nil]
      rw [htot]; ring
  · rfl

theorem foldl_expCell_sum {s : State} {dt : ℚ} {grid : List ℚ}
    {cells : List (ℕ × ℕ)} {next : List ℚ} (hm : s.hasMask = false)
    (hlen : next.length = s.gridWidth * s.gridHeight)
    (hcells : ∀ c ∈ cells, c ∈ interiorCells s.gridWidth s.gridHeight) :
    (cells.foldl (expCell s dt grid) next).sum = next.sum := by
  induction cells generalizing next with
  | nil => rfl
  | cons c rest ih =>
    rw [List.foldl_cons]
    rw [ih (by rw [expCell_length]; exact hlen) (fun c' hc' => hcells c' (by simp [hc']))]
    exact expCell_sum hm hlen (hcells c (by simp))

/-- C2.  With no emitter present and no mask active, one diffusion step
of either height-field automaton (`updateSmartExpansion` or
`updateExperimental`) leaves the sum of all grid cells exactly
unchanged: every flux subtracted from a source cell is added to a
neighbour, and fluxes are scaled down proportionally when their total
would exceed the source cell's mass. -/
theorem grid_diffusion_conserves_sum (M : JsMath) (s : State) (dt : ℚ)
    (hm : s.hasMask = false) (he : s.emitters = [])
    (hl : s.grid.length = s.gridWidth * s.gridHeight) :
    (updateSmartExpansion M s dt).grid.sum = s.grid.sum ∧
    (updateExperimental s dt).grid.sum = s.grid.sum := by
  constructor
  · show ((interiorCells s.gridWidth s.gridHeight).foldl (smartCell M s dt s.grid)
      (smartEmitterPhase M s dt s.emitters s.grid).2).sum = s.grid.sum
    rw [he]
    exact foldl_smartCell_sum hm hl (fun c hc => hc)
  · show ((interiorCells s.gridWidth s.gridHeight).foldl (expCell s dt s.grid)
      (expEmitterPhase s dt s.emitters s.grid).2).sum = s.grid.sum
    rw [he]
    exact foldl_expCell_sum hm hl (fun c hc => hc)

/-! ### C10: nonnegativity of the height field -/

theorem gridNonneg_of_forall_mem {g : List ℚ} (h : ∀ x ∈ g, 0 ≤ x) : GridNonneg g := by
  intro j
  by_cases hj : j < g.length
  · rw [List.getD_eq_getElem?_getD, List.getElem?_eq_getElem hj]
    exact h _ (List.getElem_mem hj)
  · rw [List.getD_eq_getElem?_getD, List.getElem?_eq_none (le_of_not_lt hj)]
    exact le_refl 0

theorem gridNonneg_set {g : List ℚ} {n : ℕ} {v : ℚ} (hg : GridNonneg g) (hv : 0 ≤ v) :
    GridNonneg (g.set n v) := by
  intro j
  by_cases hnj : n = j
  · subst hnj
    by_cases hlen : n < g.length
    · rw [List.getD_eq_getElem?_getD, List.getElem?_set_self hlen]
      exact hv
    · rw [List.set_eq_of_length_le (le_of_not_lt hlen)]
      exact hg n
  · rw [getD_set_other hnj]
    exact hg j

theorem getD_set_ge {g : List ℚ} {n j : ℕ} {v : ℚ} (hv : g.getD n 0 ≤ v) :
    g.getD j 0 ≤ (g.set n v).getD j 0 := by
  by_cases hnj : n = j
  · subst hnj
    by_cases hlen : n < g.length
    · simp only [List.getD_eq_getElem?_getD] at hv ⊢
      rw [List.getElem?_set_self hlen]
      exact hv
    · rw [List.set_eq_of_length_le (le_of_not_lt hlen)]
  · rw [getD_set_other hnj]

/-- A fold preserves a predicate if every step does. -/
theorem foldl_preserve {α β : Type} {P : β → Prop} {f : β → α → β} {l : List α} {b : β}
    (hstep : ∀ b' a, a ∈ l → P b' → P (f b' a)) (hb : P b) : P (l.foldl f b) := by
  induction l generalizing b with
  | nil => exact hb
  | cons a rest ih =>
    rw [List.foldl_cons]
    exact ih (fun b' a' ha' => hstep b' a' (by simp [ha'])) (hstep b a (by simp) hb)

theorem smartInjectCell_mono {dt pumpRate : ℚ} {g : List ℚ} {idx : ℤ} {j : ℕ}
    (h : 0 ≤ dt * pumpRate) : g.getD j 0 ≤ (smartInjectCell dt pumpRate g idx).getD j 0 := by
  unfold smartInjectCell
  by_cases h1 : 0 ≤ idx ∧ idx < (g.length : ℤ)
  · rw [if_pos h1]
    dsimp only
    by_cases h2 : g.getD idx.toNat 0 < 5/2
    · rw [if_pos h2]
      refine getD_set_ge ?_
      split_ifs with h3
      · linarith
      · linarith
    · rw [if_neg h2]
  · rw [if_neg h1]

theorem smartInjectCell_nonneg {dt pumpRate : ℚ} {g : List ℚ} {idx : ℤ}
    (hg : GridNonneg g) (h : 0 ≤ dt * pumpRate) :
    GridNonneg (smartInjectCell dt pumpRate g idx) := by
  intro j
  exact le_trans (hg j) (smartInjectCell_mono h)

theorem smartPumpRate_nonneg (M : JsMath) (s : State) (age : ℚ) :
    0 ≤ (smartPumpRadius M s age).1 := by
  unfold smartPumpRadius
  dsimp only
  split_ifs
  · have := M.pow_nonneg (M.exp (-8 * (jsMod age (8/10) / (8/10)))) 2 (M.exp_nonneg _)
    dsimp only
    linarith
  · norm_num

/-- A fold never decreases entry `j` if no step does. -/
theorem foldl_getD_mono {α : Type} (step : List ℚ → α → List ℚ) (l : List α)
    (g : List ℚ) (j : ℕ) (h : ∀ g' a, g'.getD j 0 ≤ (step g' a).getD j 0) :
    g.getD j 0 ≤ (l.foldl step g).getD j 0 := by
  induction l generalizing g with
  | nil => exact le_refl _
  | cons a rest ih => exact le_trans (h g a) (ih (step g a))

theorem smartEmitterPhase_mono {M : JsMath} {s : State} {dt : ℚ}
    (hdt : 0 ≤ dt) (es : List Emitter) (g : List ℚ) (j : ℕ) :
    g.getD j 0 ≤ (smartEmitterPhase M s dt es g).2.getD j 0 := by
  induction es generalizing g with
  | nil => exact le_refl _
  | cons e rest ih =>
    rw [smartEmitterPhase]
    have hih := ih g
    cases hsp : smartEmitterPhase M s dt rest g with
    | mk rest' g' =>
      rw [hsp] at hih
      dsimp only
      split_ifs with hskip
      · refine le_trans hih (foldl_getD_mono _ _ _ _ ?_)
        intro g'' ji
        split_ifs
        · exact smartInjectCell_mono (mul_nonneg hdt (smartPumpRate_nonneg M s (e.age + dt)))
        · exact le_refl _
      · exact hih

theorem smartEmitterPhase_nonneg {M : JsMath} {s : State} {dt : ℚ}
    (hdt : 0 ≤ dt) (es : List Emitter) {g : List ℚ} (hg : GridNonneg g) :
    GridNonneg (smartEmitterPhase M s dt es g).2 := by
  intro j
  exact le_trans (hg j) (smartEmitterPhase_mono hdt es g j)

theorem smartFlux_nonneg {M : JsMath} {s : State} {baseSpeed permPower : ℚ}
    {grid : List ℚ} {val : ℚ} {nIdx : ℕ} {nx ny : ℤ} {f : ℚ}
    (hb : 0 ≤ baseSpeed) (hperm : GridNonneg s.permeabilityMap)
    (h : smartFlux M s baseSpeed permPower grid val nIdx nx ny = some f) : 0 ≤ f := by
  unfold smartFlux at h
  have hpow : 0 ≤ M.pow (s.permeabilityMap.getD nIdx 0) permPower :=
    M.pow_nonneg _ _ (hperm nIdx)
  by_cases h1 : ¬ (val > grid.getD nIdx 0)
  · rw [if_pos h1] at h
    exact absurd h (by simp)
  · rw [if_neg h1] at h
    push_neg at h1
    by_cases h2 : s.hasMask = true ∧ maskBlockedAtGridCoords s nx ny
    · rw [if_pos h2] at h
      exact absurd h (by simp)
    · rw [if_neg h2] at h
      dsimp only at h
      by_cases h3 : grid.getD nIdx 0 < 1/1000 ∧ val < s.surfaceTension * (1/100) ∧
          M.pow (s.permeabilityMap.getD nIdx 0) permPower < 3/10
      · rw [if_pos h3] at h
        exact absurd h (by simp)
      · rw [if_neg h3] at h
        by_cases h4 : grid.getD nIdx 0 < val * (95/100)
        · rw [if_pos h4] at h
          obtain rfl := Option.some.inj h
          have hfac : 0 ≤ baseSpeed *
              (2/10 + M.pow (s.permeabilityMap.getD nIdx 0) permPower * (15/10)) :=
            mul_nonneg hb (by linarith)
          split_ifs
          · linarith
          · exact hfac
        · rw [if_neg h4] at h
          obtain rfl := Option.some.inj h
          exact mul_nonneg (by linarith) hb

theorem positiveFluxes_sum_le {l : List (ℕ × Option ℚ)}
    (h : ∀ nf ∈ l, ∀ f, nf.2 = some f → 0 ≤ f) :
    ((positiveFluxes l).map Prod.snd).sum ≤ (l.map fun nf => nf.2.getD 0).sum := by
  induction l with
  | nil => simp [positiveFluxes]
  | cons nf rest ih =>
    have hrest := ih (fun nf' h' f hf => h nf' (by simp [h']) f hf)
    cases ho : nf.2 with
    | none =>
      simp only [positiveFluxes, List.filterMap_cons, ho, Option.none_bind, List.map_cons,
        List.sum_cons, Option.getD_none]
      unfold positiveFluxes at hrest
      linarith
    | some f =>
      have hf : 0 ≤ f := h nf (by simp) f ho
      simp only [positiveFluxes, List.filterMap_cons, ho, Option.some_bind, List.map_cons,
        List.sum_cons, Option.getD_some]
      unfold positiveFluxes at hrest
      split_ifs with hpos
      · simp only [List.map_cons, List.sum_cons]
        linarith
      · linarith

theorem interiorCells_nodup (w h : ℕ) : (interiorCells w h).Nodup := by
  unfold interiorCells
  apply List.nodup_flatMap.2
  constructor
  · intro y _
    exact List.Nodup.map (fun x₁ x₂ hxy => by simpa using congrArg Prod.fst hxy)
      (List.nodup_range' _ _)
  · refine List.Pairwise.imp_of_mem ?_ (List.nodup_range' _ _)
    intro y₁ y₂ _ _ hne p hp₁ hp₂
    rw [List.mem_map] at hp₁ hp₂
    obtain ⟨x₁, _, rfl⟩ := hp₁
    obtain ⟨x₂, _, he⟩ := hp₂
    have hsnd := congrArg Prod.snd he
    simp at hsnd
    exact hne hsnd.symm

theorem interiorCells_pairwise_idx (w h : ℕ) :
    (interiorCells w h).Pairwise (fun a b => a.2 * w + a.1 ≠ b.2 * w + b.1) := by
  refine (interiorCells_nodup w h).imp_of_mem ?_
  intro a b ha hb hne heq
  apply hne
  obtain ⟨ha1, ha2, ha3, ha4⟩ := mem_interiorCells (x := a.1) (y := a.2) (by simpa using ha)
  obtain ⟨hb1, hb2, hb3, hb4⟩ := mem_interiorCells (x := b.1) (y := b.2) (by simpa using hb)
  have hx : a.1 = b.1 := by
    have h1 : (a.1 + a.2 * w) % w = a.1 := by
      rw [Nat.add_mul_mod_self_right, Nat.mod_eq_of_lt (by omega)]
    have h2 : (b.1 + b.2 * w) % w = b.1 := by
      rw [Nat.add_mul_mod_self_right, Nat.mod_eq_of_lt (by omega)]
    have heq' : a.1 + a.2 * w = b.1 + b.2 * w := by omega
    rw [← h1, ← h2, heq']
  have hy : a.2 = b.2 := by
    have hw : 0 < w := by omega
    have : a.2 * w = b.2 * w := by omega
    exact Nat.eq_of_mul_eq_mul_right hw this
  exact Prod.ext hx hy

/-- Nonnegativity and off-source monotonicity of the applied fluxes of a
smart cell, for any scale factor whose product with the total stays
below the source entry. -/
theorem smartCell_apply_nonneg {next : List ℚ} {idx : ℕ} {l : List (ℕ × Option ℚ)}
    {scaleF : ℚ}
    (hidx : idx < next.length)
    (hne : ∀ p ∈ positiveFluxes l, p.1 ≠ idx)
    (hfl : ∀ nf ∈ l, ∀ f, nf.2 = some f → 0 ≤ f)
    (hsf : 0 ≤ scaleF)
    (hbound : (l.map fun nf => nf.2.getD 0).sum * scaleF ≤ next.getD idx 0)
    (hnn : GridNonneg next) :
    GridNonneg (applyFluxes next idx (positiveFluxes l) scaleF) ∧
    ∀ j, j ≠ idx → next.getD j 0 ≤ (applyFluxes next idx (positiveFluxes l) scaleF).getD j 0 := by
  have hpos : ∀ p ∈ positiveFluxes l, 0 ≤ p.2 * scaleF := fun p hp =>
    mul_nonneg (le_of_lt (mem_positiveFluxes hp).2) hsf
  have hS : ((positiveFluxes l).map Prod.snd).sum ≤ (l.map fun nf => nf.2.getD 0).sum :=
    positiveFluxes_sum_le hfl
  have hsum : ((positiveFluxes l).map Prod.snd).sum * scaleF ≤ next.getD idx 0 :=
    le_trans (mul_le_mul_of_nonneg_right hS hsf) hbound
  exact ⟨applyFluxes_nonneg hidx hne hpos hsum hnn,
    fun j hj => applyFluxes_getD_le hj hpos⟩

theorem smartCell_nonneg {M : JsMath} {s : State} {dt : ℚ} {grid next : List ℚ}
    {xy : ℕ × ℕ}
    (hdt : 0 ≤ dt) (hperm : GridNonneg s.permeabilityMap)
    (hlen : next.length = s.gridWidth * s.gridHeight)
    (hc : xy ∈ interiorCells s.gridWidth s.gridHeight)
    (hnn : GridNonneg next)
    (hge : grid.getD (xy.2 * s.gridWidth + xy.1) 0 ≤ next.getD (xy.2 * s.gridWidth + xy.1) 0) :
    GridNonneg (smartCell M s dt grid next xy) ∧
    ∀ j, j ≠ xy.2 * s.gridWidth + xy.1 →
      next.getD j 0 ≤ (smartCell M s dt grid next xy).getD j 0 := by
  obtain ⟨x, y⟩ := xy
  obtain ⟨hx1, hx2, hy1, hy2⟩ := mem_interiorCells hc
  have hwh := interior_idx_lt hx1 hx2 hy1 hy2
  dsimp only at hge ⊢
  have hb : (0 : ℚ) ≤ 40 * dt := by linarith
  have hfl : ∀ baseSpeed permPower val, 0 ≤ baseSpeed →
      ∀ nf ∈ [((y * s.gridWidth + x - s.gridWidth : ℕ),
          smartFlux M s baseSpeed permPower grid val (y * s.gridWidth + x - s.gridWidth)
            (x : ℤ) ((y : ℤ) - 1)),
        (y * s.gridWidth + x + s.gridWidth,
          smartFlux M s baseSpeed permPower grid val (y * s.gridWidth + x + s.gridWidth)
            (x : ℤ) ((y : ℤ) + 1)),
        (y * s.gridWidth + x - 1,
          smartFlux M s baseSpeed permPower grid val (y * s.gridWidth + x - 1)
            ((x : ℤ) - 1) (y : ℤ)),
        (y * s.gridWidth + x + 1,
          smartFlux M s baseSpeed permPower grid val (y * s.gridWidth + x + 1)
            ((x : ℤ) + 1) (y : ℤ))],
      ∀ f, nf.2 = some f → 0 ≤ f := by
    intro baseSpeed permPower val hbs nf hnf f hf
    simp only [List.mem_cons, List.not_mem_nil, or_false] at hnf
    rcases hnf with rfl | rfl | rfl | rfl <;> exact smartFlux_nonneg hbs hperm hf
  have hnemem : ∀ {o₀ o₁ o₂ o₃ : Option ℚ},
      ∀ p ∈ positiveFluxes [((y * s.gridWidth + x - s.gridWidth : ℕ), o₀),
        (y * s.gridWidth + x + s.gridWidth, o₁), (y * s.gridWidth + x - 1, o₂),
        (y * s.gridWidth + x + 1, o₃)], p.1 ≠ y * s.gridWidth + x := by
    intro o₀ o₁ o₂ o₃ p hp
    have hmem := (mem_positiveFluxes hp).1
    simp only [List.mem_cons, List.not_mem_nil, or_false, Prod.mk.injEq] at hmem
    have hxw : 1 ≤ s.gridWidth := by omega
    have hidxw : s.gridWidth ≤ y * s.gridWidth + x := by
      calc s.gridWidth = 1 * s.gridWidth := (Nat.one_mul _).symm
        _ ≤ y * s.gridWidth := Nat.mul_le_mul_right _ hy1
        _ ≤ y * s.gridWidth + x := Nat.le_add_right _ _
    rcases hmem with ⟨h, _⟩ | ⟨h, _⟩ | ⟨h, _⟩ | ⟨h, _⟩ <;> omega
  unfold smartCell
  dsimp only
  split_ifs with h1 h2 h3
  · -- source cell zeroed by the mask
    refine ⟨gridNonneg_set hnn (le_refl 0), fun j hj => ?_⟩
    rw [getD_set_other (fun he => hj he.symm)]
  · -- fluxes applied with the proportional scale-down
    have hvalpos : (0 : ℚ) < grid.getD (y * s.gridWidth + x) 0 := lt_trans (by norm_num) h1
    have htfpos : (0 : ℚ) <
        (smartFlux M s (40 * dt) (3 * (11/10 - s.poolingRandomness)) grid
            (grid.getD (y * s.gridWidth + x) 0) (y * s.gridWidth + x - s.gridWidth)
            (x : ℤ) ((y : ℤ) - 1)).getD 0 +
          (smartFlux M s (40 * dt) (3 * (11/10 - s.poolingRandomness)) grid
            (grid.getD (y * s.gridWidth + x) 0) (y * s.gridWidth + x + s.gridWidth)
            (x : ℤ) ((y : ℤ) + 1)).getD 0 +
          (smartFlux M s (40 * dt) (3 * (11/10 - s.poolingRandomness)) grid
            (grid.getD (y * s.gridWidth + x) 0) (y * s.gridWidth + x - 1)
            ((x : ℤ) - 1) (y : ℤ)).getD 0 +
          (smartFlux M s (40 * dt) (3 * (11/10 - s.poolingRandomness)) grid
            (grid.getD (y * s.gridWidth + x) 0) (y * s.gridWidth + x + 1)
            ((x : ℤ) + 1) (y : ℤ)).getD 0 := lt_trans hvalpos h3
    refine smartCell_apply_nonneg (by rw [hlen]; omega) (hnemem)
      (hfl _ _ _ hb) (le_of_lt (div_pos hvalpos htfpos)) ?_ hnn
    have hmap : ∀ o₀ o₁ o₂ o₃ : Option ℚ,
        (([((y * s.gridWidth + x - s.gridWidth : ℕ), o₀),
          (y * s.gridWidth + x + s.gridWidth, o₁), (y * s.gridWidth + x - 1, o₂),
          (y * s.gridWidth + x + 1, o₃)]).map fun nf => nf.2.getD 0).sum
        = o₀.getD 0 + o₁.getD 0 + o₂.getD 0 + o₃.getD 0 := by
      intro o₀ o₁ o₂ o₃
      simp only [List.map_cons, List.map_nil, List.sum_cons, List.sum_nil]
      ring
    rw [hmap, mul_comm, div_mul_cancel₀ _ (ne_of_gt htfpos)]
    exact hge
  · -- fluxes applied unscaled
    refine smartCell_apply_nonneg (by rw [hlen]; omega) (hnemem)
      (hfl _ _ _ hb) (by norm_num) ?_ hnn
    have hmap : ∀ o₀ o₁ o₂ o₃ : Option ℚ,
        (([((y * s.gridWidth + x - s.gridWidth : ℕ), o₀),
          (y * s.gridWidth + x + s.gridWidth, o₁), (y * s.gridWidth + x - 1, o₂),
          (y * s.gridWidth + x + 1, o₃)]).map fun nf => nf.2.getD 0).sum
        = o₀.getD 0 + o₁.getD 0 + o₂.getD 0 + o₃.getD 0 := by
      intro o₀ o₁ o₂ o₃
      simp only [List.map_cons, List.map_nil, List.sum_cons, List.sum_nil]
      ring
    rw [hmap, mul_one]
    exact le_trans (not_lt.mp h3) hge
  · exact ⟨hnn, fun j _ => le_refl _⟩

theorem foldl_smartCell_nonneg {M : JsMath} {s : State} {dt : ℚ} {grid : List ℚ}
    {cells : List (ℕ × ℕ)} {next : List ℚ}
    (hdt : 0 ≤ dt) (hperm : GridNonneg s.permeabilityMap)
    (hlen : next.length = s.gridWidth * s.gridHeight)
    (hcells : ∀ c ∈ cells, c ∈ interiorCells s.gridWidth s.gridHeight)
    (hpw : cells.Pairwise (fun a b => a.2 * s.gridWidth + a.1 ≠ b.2 * s.gridWidth + b.1))
    (hnn : GridNonneg next)
    (hge : ∀ c ∈ cells, grid.getD (c.2 * s.gridWidth + c.1) 0
      ≤ next.getD (c.2 * s.gridWidth + c.1) 0) :
    GridNonneg (cells.foldl (smartCell M s dt grid) next) := by
  induction cells generalizing next with
  | nil => exact hnn
  | cons c rest ih =>
    rw [List.foldl_cons]
    have hcell := smartCell_nonneg (M := M) hdt hperm hlen (hcells c (by simp)) hnn
      (hge c (by simp))
    refine ih (by rw [smartCell_length]; exact hlen)
      (fun c' hc' => hcells c' (by simp [hc'])) hpw.of_cons hcell.1 ?_
    intro c' hc'
    have hne : c'.2 * s.gridWidth + c'.1 ≠ c.2 * s.gridWidth + c.1 :=
      ((List.pairwise_cons.mp hpw).1 c' hc').symm
    exact le_trans (hge c' (by simp [hc'])) (hcell.2 _ hne)

theorem smartInjectCell_length (dt pumpRate : ℚ) (g : List ℚ) (idx : ℤ) :
    (smartInjectCell dt pumpRate g idx).length = g.length := by
  unfold smartInjectCell
  dsimp only
  split_ifs <;> simp

theorem smartEmitterPhase_length {M : JsMath} {s : State} {dt : ℚ}
    (es : List Emitter) (g : List ℚ) :
    (smartEmitterPhase M s dt es g).2.length = g.length := by
  induction es generalizing g with
  | nil => rfl
  | cons e rest ih =>
    rw [smartEmitterPhase]
    have hih := ih g
    cases hsp : smartEmitterPhase M s dt rest g with
    | mk rest' g' =>
      rw [hsp] at hih
      dsimp only at hih ⊢
      split_ifs
      · refine Eq.trans ?_ hih
        apply foldl_preserve (P := fun g'' : List ℚ => g''.length = g'.length)
        · intro g'' ji _ hl
          split_ifs
          · rw [smartInjectCell_length, hl]
          · exact hl
        · rfl
      · exact hih

/-- Smart part of the grid-nonnegativity argument: `updateSmartExpansion` preserves nonnegativity of
the grid: injection tops cells up toward the fill ceiling and the
diffusion outflux is capped by the source's pre-step value, which the
injection never decreases. -/
theorem updateSmartExpansion_nonneg {M : JsMath} {s : State} {dt : ℚ}
    (hdt : 0 ≤ dt) (hg : GridNonneg s.grid) (hperm : GridNonneg s.permeabilityMap)
    (hlen : s.grid.length = s.gridWidth * s.gridHeight) :
    GridNonneg (updateSmartExpansion M s dt).grid := by
  show GridNonneg ((interiorCells s.gridWidth s.gridHeight).foldl (smartCell M s dt s.grid)
    (smartEmitterPhase M s dt s.emitters s.grid).2)
  refine foldl_smartCell_nonneg hdt hperm ?_ (fun c hc => hc)
    (interiorCells_pairwise_idx s.gridWidth s.gridHeight)
    (smartEmitterPhase_nonneg hdt s.emitters hg) ?_
  · rw [smartEmitterPhase_length]; exact hlen
  · intro c _
    exact smartEmitterPhase_mono hdt s.emitters s.grid _

theorem gridLe_set {g : List ℚ} {n : ℕ} {v c : ℚ} (hg : GridLe g c) (hv : v ≤ c) :
    GridLe (g.set n v) c := by
  intro j
  by_cases hnj : n = j
  · subst hnj
    by_cases hlen : n < g.length
    · simp only [List.getD_eq_getElem?_getD]
      rw [List.getElem?_set_self hlen]
      exact hv
    · rw [List.set_eq_of_length_le (le_of_not_lt hlen)]
      exact hg n
  · rw [getD_set_other hnj]
    exact hg j

/-- A single experimental injection step never decreases a cell, keeps
every cell at or below the 3.0 ceiling, and preserves the grid length. -/
theorem expInject_mono_le3 {s : State} {dt : ℚ} (hdt : 0 ≤ dt) (gx gy : ℤ)
    (g : List ℚ) (di : ℤ × ℤ) (hle : GridLe g 3) :
    (∀ j, g.getD j 0 ≤ (expInject s dt gx gy g di).getD j 0) ∧
    GridLe (expInject s dt gx gy g di) 3 ∧
    (expInject s dt gx gy g di).length = g.length := by
  unfold expInject
  dsimp only
  split_ifs
  all_goals try exact ⟨fun _ => le_refl _, hle, rfl⟩
  exact ⟨fun j => getD_set_ge (le_min (hle _) (by linarith)),
    gridLe_set hle (min_le_left _ _), by rw [List.length_set]⟩

/-- A fold whose every step is pointwise monotone, ceiling-preserving
and length-preserving has those properties as a whole. -/
theorem foldl_mono_le3_len {α : Type} {f : List ℚ → α → List ℚ} {l : List α} {g : List ℚ}
    (hstep : ∀ g' a, GridLe g' 3 →
      (∀ j, g'.getD j 0 ≤ (f g' a).getD j 0) ∧ GridLe (f g' a) 3 ∧
      (f g' a).length = g'.length)
    (hle : GridLe g 3) :
    (∀ j, g.getD j 0 ≤ (l.foldl f g).getD j 0) ∧ GridLe (l.foldl f g) 3 ∧
    (l.foldl f g).length = g.length := by
  induction l generalizing g with
  | nil => exact ⟨fun _ => le_refl _, hle, rfl⟩
  | cons a rest ih =>
    rw [List.foldl_cons]
    obtain ⟨h1, h2, h3⟩ := hstep g a hle
    obtain ⟨h4, h5, h6⟩ := ih h2
    exact ⟨fun j => le_trans (h1 j) (h4 j), h5, h6.trans h3⟩

/-- The experimental emitter pass never decreases a cell, keeps the grid
below the 3.0 ceiling, and preserves the grid length. -/
theorem expEmitterPhase_mono_le3 {s : State} {dt : ℚ} (hdt : 0 ≤ dt)
    (es : List Emitter) {g : List ℚ} (hle : GridLe g 3) :
    (∀ j, g.getD j 0 ≤ (expEmitterPhase s dt es g).2.getD j 0) ∧
    GridLe (expEmitterPhase s dt es g).2 3 ∧
    (expEmitterPhase s dt es g).2.length = g.length := by
  induction es generalizing g with
  | nil => exact ⟨fun _ => le_refl _, hle, rfl⟩
  | cons e rest ih =>
    rw [expEmitterPhase]
    have hih := ih hle
    cases hsp : expEmitterPhase s dt rest g with
    | mk rest' g' =>
      rw [hsp] at hih
      dsimp only at hih ⊢
      split_ifs
      · obtain ⟨hm, hl3, hln⟩ := hih
        obtain ⟨h1, h2, h3⟩ :=
          foldl_mono_le3_len (fun gg di h => expInject_mono_le3 hdt _ _ gg di h) hl3
        exact ⟨fun j => le_trans (hm j) (h1 j), h2, h3.trans hln⟩
      · exact hih

theorem expCellApply_nonneg {next : List ℚ} {idx : ℕ} {flows : List (ℕ × Option ℚ)}
    {val totalFlow : ℚ}
    (hidx : idx < next.length)
    (hval : val ≤ next.getD idx 0)
    (hnn : GridNonneg next) :
    GridNonneg (expCellApply next idx flows val totalFlow) ∧
    ∀ j, j ≠ idx → next.getD j 0 ≤ (expCellApply next idx flows val totalFlow).getD j 0 := by
  unfold expCellApply
  dsimp only
  have heff : (if totalFlow > val then val else totalFlow) ≤ val := by
    split_ifs with h
    · exact le_refl _
    · exact le_of_not_lt h
  constructor
  · intro j
    refine le_trans ?_ (addFlows_getD_le _ _ _ j)
    by_cases hj : j = idx
    · subst hj
      rw [bump_getD_self hidx]
      linarith
    · rw [bump_getD_other (fun he => hj he.symm)]
      exact hnn j
  · intro j hj
    refine le_trans ?_ (addFlows_getD_le _ _ _ j)
    rw [bump_getD_other (fun he => hj he.symm)]

theorem expCell_nonneg {s : State} {dt : ℚ} {grid next : List ℚ}
    {xy : ℕ × ℕ}
    (hlen : next.length = s.gridWidth * s.gridHeight)
    (hc : xy ∈ interiorCells s.gridWidth s.gridHeight)
    (hnn : GridNonneg next)
    (hge : grid.getD (xy.2 * s.gridWidth + xy.1) 0 ≤ next.getD (xy.2 * s.gridWidth + xy.1) 0) :
    GridNonneg (expCell s dt grid next xy) ∧
    ∀ j, j ≠ xy.2 * s.gridWidth + xy.1 →
      next.getD j 0 ≤ (expCell s dt grid next xy).getD j 0 := by
  obtain ⟨x, y⟩ := xy
  obtain ⟨hx1, hx2, hy1, hy2⟩ := mem_interiorCells hc
  have hwh := interior_idx_lt hx1 hx2 hy1 hy2
  dsimp only at hge ⊢
  unfold expCell
  dsimp only
  split_ifs with h1 h2 h3
  · exact ⟨hnn, fun j _ => le_refl _⟩
  · refine ⟨gridNonneg_set hnn (le_refl 0), fun j hj => ?_⟩
    rw [getD_set_other (fun he => hj he.symm)]
  · exact expCellApply_nonneg (by rw [hlen]; omega) hge hnn
  · exact ⟨hnn, fun j _ => le_refl _⟩

theorem foldl_expCell_nonneg {s : State} {dt : ℚ} {grid : List ℚ}
    {cells : List (ℕ × ℕ)} {next : List ℚ}
    (hlen : next.length = s.gridWidth * s.gridHeight)
    (hcells : ∀ c ∈ cells, c ∈ interiorCells s.gridWidth s.gridHeight)
    (hpw : cells.Pairwise (fun a b => a.2 * s.gridWidth + a.1 ≠ b.2 * s.gridWidth + b.1))
    (hnn : GridNonneg next)
    (hge : ∀ c ∈ cells, grid.getD (c.2 * s.gridWidth + c.1) 0
      ≤ next.getD (c.2 * s.gridWidth + c.1) 0) :
    GridNonneg (cells.foldl (expCell s dt grid) next) := by
  induction cells generalizing next with
  | nil => exact hnn
  | cons c rest ih =>
    rw [List.foldl_cons]
    have hcell := @expCell_nonneg s dt grid next c hlen (hcells c (by simp)) hnn
      (hge c (by simp))
    refine ih (by rw [expCell_length]; exact hlen)
      (fun c' hc' => hcells c' (by simp [hc'])) hpw.of_cons hcell.1 ?_
    intro c' hc'
    have hne : c'.2 * s.gridWidth + c'.1 ≠ c.2 * s.gridWidth + c.1 :=
      ((List.pairwise_cons.mp hpw).1 c' hc').symm
    exact le_trans (hge c' (by simp [hc'])) (hcell.2 _ hne)

/-- Experimental part of the grid-nonnegativity argument: `updateExperimental` preserves grid
nonnegativity provided no pre-step cell exceeds the 3.0 injection
ceiling: then the emitter phase never lowers a cell and the diffusion
outflux is capped at the source's pre-step value. -/
theorem updateExperimental_nonneg {s : State} {dt : ℚ}
    (hdt : 0 ≤ dt) (hg : GridNonneg s.grid) (hle : GridLe s.grid 3)
    (hlen : s.grid.length = s.gridWidth * s.gridHeight) :
    GridNonneg (updateExperimental s dt).grid := by
  obtain ⟨hm, hl3, hln⟩ := expEmitterPhase_mono_le3 hdt s.emitters hle
  show GridNonneg ((interiorCells s.gridWidth s.gridHeight).foldl (expCell s dt s.grid)
    (expEmitterPhase s dt s.emitters s.grid).2)
  refine foldl_expCell_nonneg (by rw [hln]; exact hlen) (fun c hc => hc)
    (interiorCells_pairwise_idx s.gridWidth s.gridHeight)
    (fun j => le_trans (hg j) (hm j)) ?_
  intro c _
  exact hm _

/-- Writing a typed-array slot with a value at least the one read there
never decreases any entry. -/
theorem jsGridSet_getD_ge {g : List ℚ} {q v current : ℚ}
    (hget : jsGridGet g q = some current) (hv : current ≤ v) (j : ℕ) :
    g.getD j 0 ≤ (jsGridSet g q v).getD j 0 := by
  unfold jsGridGet at hget
  unfold jsGridSet
  split_ifs with h
  · rw [if_pos h] at hget
    obtain rfl := Option.some.inj hget
    exact getD_set_ge hv
  · exact le_refl _

/-- A tlou projection cell only ever raises the grid toward the sampled
target height. -/
theorem tlouCell_mono {s : State} {fd : FormationData} {dt age radius : ℚ}
    {gx gy : ℤ} {cosR sinR : ℚ} (hdt : 0 ≤ dt) (g : List ℚ) (dydx : ℚ × ℚ) (j : ℕ) :
    g.getD j 0 ≤ (tlouCell s fd dt age radius gx gy cosR sinR g dydx).getD j 0 := by
  unfold tlouCell
  dsimp only
  split_ifs with h1 h2 h3 h4 h5
  all_goals try exact le_refl _
  split
  · rename_i current hget
    split_ifs with hcur
    · refine jsGridSet_getD_ge hget ?_ j
      nlinarith
    · exact le_refl _
  · exact le_refl _

/-- The tlou emitter pass never decreases any grid cell. -/
theorem tlouEmitterPhase_mono {M : JsMath} {s : State} {dt : ℚ} {fd : FormationData}
    (hdt : 0 ≤ dt) (es : List Emitter) (g : List ℚ) (j : ℕ) :
    g.getD j 0 ≤ (tlouEmitterPhase M s dt fd es g).2.getD j 0 := by
  induction es generalizing g with
  | nil => exact le_refl _
  | cons e rest ih =>
    rw [tlouEmitterPhase]
    have hih := ih g
    cases hsp : tlouEmitterPhase M s dt fd rest g with
    | mk rest' g' =>
      rw [hsp] at hih
      dsimp only at hih ⊢
      split_ifs
      all_goals first
        | exact hih
        | exact le_trans hih (foldl_getD_mono _ _ _ _ fun gg di => tlouCell_mono hdt gg di j)

/-- Tlou part of the grid-nonnegativity argument: `updateTLOU` preserves grid nonnegativity. -/
theorem updateTLOU_nonneg {M : JsMath} {s : State} {dt : ℚ}
    (hdt : 0 ≤ dt) (hg : GridNonneg s.grid) :
    GridNonneg (updateTLOU M s dt).grid := by
  unfold updateTLOU
  cases hfd : s.formationData with
  | none => exact hg
  | some fd =>
    dsimp only
    intro j
    exact le_trans (hg j) (tlouEmitterPhase_mono hdt s.emitters s.grid j)

theorem gridLe_of_forall_mem {g : List ℚ} {c : ℚ} (hc : 0 ≤ c) (h : ∀ x ∈ g, x ≤ c) :
    GridLe g c := by
  intro j
  by_cases hj : j < g.length
  · rw [List.getD_eq_getElem?_getD, List.getElem?_eq_getElem hj]
    exact h _ (List.getElem_mem hj)
  · rw [List.getD_eq_getElem?_getD, List.getElem?_eq_none (le_of_not_lt hj)]
    exact hc

set_option maxRecDepth 100000 in
/-- Counterexample to C10 as stated: from the nonnegative grid
`[0,0,0,0,4,0,0,0,0]` one `updateExperimental` step drives the centre
cell to `-1`: the emitter's clamped injection `min(3, v + flow·dt·0.2)`
LOWERS the 4.0 cell to 3.0, while the diffusion pass caps the cell's
outflux against its pre-step value 4.0 and subtracts that from the
injected buffer. -/
theorem updateExperimental_negative_cell :
    GridNonneg cexC10State.grid ∧
    (updateExperimental cexC10State (1/60)).grid.getD 4 0 = -1 :=
  ⟨gridNonneg_of_forall_mem (by decide), by with_unfolding_all decide⟩

/-- C10 (amended). Starting from a nonnegative grid, the smart and tlou
updates preserve cellwise nonnegativity unconditionally, and the
experimental update preserves it provided no pre-step cell exceeds the
3.0 injection ceiling (without that bound the clamp can strictly lower a
cell while the diffusion outflux is still scaled against the larger
pre-step value, driving the cell negative). -/
theorem grid_updates_nonneg {M : JsMath} {s : State} {dt : ℚ}
    (hdt : 0 ≤ dt) (hg : GridNonneg s.grid)
    (hperm : GridNonneg s.permeabilityMap)
    (hlen : s.grid.length = s.gridWidth * s.gridHeight)
    (hle : GridLe s.grid 3) :
    GridNonneg (updateSmartExpansion M s dt).grid ∧
    GridNonneg (updateExperimental s dt).grid ∧
    GridNonneg (updateTLOU M s dt).grid :=
  ⟨updateSmartExpansion_nonneg hdt hg hperm hlen,
   updateExperimental_nonneg hdt hg hle hlen,
   updateTLOU_nonneg hdt hg⟩

/-- Witness for the amended C10 theorem at a concrete state (the
counterexample state with its centre cell back inside the ceiling). -/
theorem grid_updates_nonneg_witness :
    GridNonneg (updateSmartExpansion zeroJsMath
      { cexC10State with grid := [0, 0, 0, 0, 2, 0, 0, 0, 0] } (1/60)).grid ∧
    GridNonneg (updateExperimental
      { cexC10State with grid := [0, 0, 0, 0, 2, 0, 0, 0, 0] } (1/60)).grid ∧
    GridNonneg (updateTLOU zeroJsMath
      { cexC10State with grid := [0, 0, 0, 0, 2, 0, 0, 0, 0] } (1/60)).grid :=
  grid_updates_nonneg (by norm_num) (gridNonneg_of_forall_mem (by decide))
    (gridNonneg_of_forall_mem (by decide)) (by decide)
    (gridLe_of_forall_mem (by norm_num) (by decide))

/-- Witness for the C2 conservation theorem at a concrete state. -/
theorem grid_diffusion_conserves_sum_witness :
    (updateSmartExpansion zeroJsMath { cexC10State with emitters := [] } (1/60)).grid.sum
      = ({ cexC10State with emitters := [] } : State).grid.sum ∧
    (updateExperimental { cexC10State with emitters := [] } (1/60)).grid.sum
      = ({ cexC10State with emitters := [] } : State).grid.sum :=
  grid_diffusion_conserves_sum zeroJsMath { cexC10State with emitters := [] } (1/60)
    rfl rfl (by decide)

/-- C4.  In wall mode at capacity, a spray spawn with a unit batch
(`ceil(spawnRate / 2) = 1`) drops the oldest particle and appends the
new one at the tail: exactly the most recent `maxParticles` particles
remain, in spawn order. -/
theorem wall_spawn_evicts_oldest (M : JsMath) (s : State) (x y : ℚ)
    (hmode : s.mode = "wall") (hdrop : ¬ s.spawnMode = "drop")
    (hcap : s.maxParticles ≤ s.particles.length)
    (hrate : ⌈s.spawnRate / 2⌉ = 1) :
    ∃ p : Particle, (spawn M s x y).particles = s.particles.drop 1 ++ [p] := by
  unfold spawn
  rw [hmode]
  rw [if_neg (by decide), if_neg (by decide), if_neg (by decide), if_neg (by decide),
    if_neg hdrop]
  unfold spawnSpray
  dsimp only
  rw [hrate]
  rw [show ((1 : ℤ)).toNat = 1 from rfl, Function.iterate_one]
  unfold spawnSprayIter
  dsimp only
  rw [if_pos hcap, if_pos hmode, if_pos hmode]
  exact ⟨_, rfl⟩

/-- Witness for C4 at the two-slot store. -/
theorem wall_spawn_evicts_oldest_witness :
    ∃ p : Particle, (spawn zeroJsMath cexC4State 6 6).particles
      = cexC4State.particles.drop 1 ++ [p] :=
  wall_spawn_evicts_oldest zeroJsMath cexC4State 6 6 rfl (by decide) (by decide)
    (by with_unfolding_all decide)

/-- One ballistic spawn iteration below capacity appends exactly one
particle. -/
theorem spawnBallisticIter_length (M : JsMath) (s : State) (stats : CaliberStats)
    (rgb : Rgb) (bs x y angle : ℚ) (ps : List Particle) (seed : ℤ)
    (h : ps.length < s.maxParticles) :
    (spawnBallisticIter M s stats rgb bs x y angle (ps, seed)).1.length
      = ps.length + 1 := by
  unfold spawnBallisticIter
  dsimp only
  rw [if_neg (not_le.mpr h)]
  simp

/-- The ballistic spawn loop below capacity appends one particle per
iteration. -/
theorem spawnBallisticIter_pow_length (M : JsMath) (s : State) (stats : CaliberStats)
    (rgb : Rgb) (bs x y angle : ℚ) :
    ∀ (k : ℕ) (ps : List Particle) (seed : ℤ), ps.length + k ≤ s.maxParticles →
    ((spawnBallisticIter M s stats rgb bs x y angle)^[k] (ps, seed)).1.length
      = ps.length + k := by
  intro k
  induction k with
  | zero => intro ps seed h; simp
  | succ n ih =>
    intro ps seed h
    rw [Function.iterate_succ_apply]
    cases hit : spawnBallisticIter M s stats rgb bs x y angle (ps, seed) with
    | mk ps' seed' =>
      have hlen : ps'.length = ps.length + 1 := by
        have hone := spawnBallisticIter_length M s stats rgb bs x y angle ps seed
          (by omega)
        rw [hit] at hone
        exact hone
      rw [ih ps' seed' (by omega)]
      omega

/-- C5 (amended).  With free capacity for the whole batch,
`spawnBallistic(x, y, angle, distance)` adds exactly
`toNat ⌊count_base · (1 + distance · 0.5)⌋` particles (the documented
formula, clamped at zero — for `distance < -2` the formula itself is
negative and no particle is spawned). -/
theorem spawnBallistic_adds_count (M : JsMath) (s : State) (x y angle distance : ℚ)
    (hfree : s.particles.length
        + (ballisticCount (caliberStats s.activeCaliber) distance).toNat
      ≤ s.maxParticles) :
    (spawnBallistic M s x y angle distance).particles.length
      = s.particles.length
        + (ballisticCount (caliberStats s.activeCaliber) distance).toNat := by
  unfold spawnBallistic
  dsimp only
  exact spawnBallisticIter_pow_length M s (caliberStats s.activeCaliber)
    (hexToRgb s.color) ((caliberStats s.activeCaliber).spread * (1 + distance * (15/10)))
    x y angle _ s.particles s.seed hfree

/-- C5 counterexample: at distance −6 the documented formula
`floor(count_base · (1 + distance · 0.5))` gives −90 for the "9mm"
caliber, but `spawnBallistic` adds no particle at all (the loop count is
clamped at zero), so the number of particles added is not the formula's
value. -/
theorem spawnBallistic_formula_cex :
    ballisticCount (caliberStats cexC5State.activeCaliber) (-6) = -90 ∧
    (spawnBallistic zeroJsMath cexC5State 6 6 0 (-6)).particles.length = 0 ∧
    ((spawnBallistic zeroJsMath cexC5State 6 6 0 (-6)).particles.length : ℤ)
        - (cexC5State.particles.length : ℤ)
      ≠ ballisticCount (caliberStats cexC5State.activeCaliber) (-6) :=
  ⟨by with_unfolding_all decide, by with_unfolding_all decide,
   by with_unfolding_all decide⟩

/-- Witness for the amended C5 at caliber "9mm", distance 0.3 (the
formula gives ⌊45 · 1.15⌋ = 51). -/
theorem spawnBallistic_adds_count_witness :
    (spawnBallistic zeroJsMath cexC5State 6 6 0 (3/10)).particles.length
      = cexC5State.particles.length
        + (ballisticCount (caliberStats cexC5State.activeCaliber) (3/10)).toNat :=
  spawnBallistic_adds_count zeroJsMath cexC5State 6 6 0 (3/10)
    (by with_unfolding_all decide)

/-! ### C3: capacity bounds of the spawn paths -/

theorem spawnExperimental_particles (s : State) (x y : ℚ) :
    (spawnExperimental s x y).particles = s.particles := by
  unfold spawnExperimental
  split_ifs <;> rfl

theorem spawnSmart_particles (s : State) (x y : ℚ) :
    (spawnSmart s x y).particles = s.particles := rfl

theorem spawnVectorDrip_particles (M : JsMath) (s : State) (x y : ℚ) :
    (spawnVectorDrip M s x y).particles = s.particles := rfl

theorem spawnTLOU_particles (M : JsMath) (s : State) (x y : ℚ) :
    (spawnTLOU M s x y).particles = s.particles := rfl

/-- A spray iteration grows the store by at most one. -/
theorem spawnSprayIter_length_le (M : JsMath) (s : State) (rgb : Rgb) (b : ℚ)
    (acc : List Particle × ℤ × ℚ × ℚ) :
    (spawnSprayIter M s rgb b acc).1.length ≤ acc.1.length + 1 := by
  obtain ⟨ps, seed, x, y⟩ := acc
  unfold spawnSprayIter
  dsimp only
  split_ifs <;>
    (simp only [List.length_append, List.length_drop, List.length_cons,
      List.length_nil]; omega)

theorem spawnSprayIter_pow_le (M : JsMath) (s : State) (rgb : Rgb) (b : ℚ) :
    ∀ (k : ℕ) (acc : List Particle × ℤ × ℚ × ℚ),
      ((spawnSprayIter M s rgb b)^[k] acc).1.length ≤ acc.1.length + k := by
  intro k
  induction k with
  | zero => intro acc; simp
  | succ n ih =>
    intro acc
    rw [Function.iterate_succ_apply]
    have h1 := ih (spawnSprayIter M s rgb b acc)
    have h2 := spawnSprayIter_length_le M s rgb b acc
    omega

/-- In wall mode the spray iteration never grows the store past
`max`imum of its current size and the capacity. -/
theorem spawnSprayIter_wall_le (M : JsMath) (s : State) (rgb : Rgb) (b : ℚ)
    (hmode : s.mode = "wall") (hcap : 0 < s.maxParticles)
    (acc : List Particle × ℤ × ℚ × ℚ) :
    (spawnSprayIter M s rgb b acc).1.length ≤ max acc.1.length s.maxParticles := by
  obtain ⟨ps, seed, x, y⟩ := acc
  unfold spawnSprayIter
  dsimp only
  split_ifs
  all_goals first
    | exact absurd hmode (by assumption)
    | (simp only [List.length_append, List.length_drop, List.length_cons,
        List.length_nil, le_max_iff]; omega)

theorem spawnSprayIter_wall_pow_le (M : JsMath) (s : State) (rgb : Rgb) (b : ℚ)
    (hmode : s.mode = "wall") (hcap : 0 < s.maxParticles) :
    ∀ (k : ℕ) (acc : List Particle × ℤ × ℚ × ℚ),
      ((spawnSprayIter M s rgb b)^[k] acc).1.length ≤ max acc.1.length s.maxParticles := by
  intro k
  induction k with
  | zero => intro acc; exact le_max_left _ _
  | succ n ih =>
    intro acc
    rw [Function.iterate_succ_apply]
    refine le_trans (ih _) (max_le ?_ (le_max_right _ _))
    exact spawnSprayIter_wall_le M s rgb b hmode hcap acc

/-- A blob iteration never grows the store past the max of its current
size and the capacity (eviction is unconditional at capacity). -/
theorem spawnBlobIter_le (M : JsMath) (s : State) (rgb : Rgb) (f x y : ℚ)
    (hcap : 0 < s.maxParticles) (acc : List Particle × ℤ) :
    (spawnBlobIter M s rgb f x y acc).1.length ≤ max acc.1.length s.maxParticles := by
  obtain ⟨ps, seed⟩ := acc
  unfold spawnBlobIter
  dsimp only
  split_ifs <;>
    (simp only [List.length_append, List.length_drop, List.length_cons,
      List.length_nil, le_max_iff]; omega)

theorem spawnBlobIter_pow_le (M : JsMath) (s : State) (rgb : Rgb) (f x y : ℚ)
    (hcap : 0 < s.maxParticles) :
    ∀ (k : ℕ) (acc : List Particle × ℤ),
      ((spawnBlobIter M s rgb f x y)^[k] acc).1.length ≤ max acc.1.length s.maxParticles := by
  intro k
  induction k with
  | zero => intro acc; exact le_max_left _ _
  | succ n ih =>
    intro acc
    rw [Function.iterate_succ_apply]
    refine le_trans (ih _) (max_le ?_ (le_max_right _ _))
    exact spawnBlobIter_le M s rgb f x y hcap acc

theorem spawnSpray_length_le (M : JsMath) (s : State) (x y : ℚ) :
    (spawnSpray M s x y).particles.length
      ≤ s.particles.length + (⌈s.spawnRate / 2⌉).toNat := by
  unfold spawnSpray
  dsimp only
  exact spawnSprayIter_pow_le M s (hexToRgb s.color) (s.spawnVelocity * 20) _
    (s.particles, s.seed, x, y)

theorem spawnSpray_wall_length_le (M : JsMath) (s : State) (x y : ℚ)
    (hmode : s.mode = "wall") (hcap : 0 < s.maxParticles) :
    (spawnSpray M s x y).particles.length ≤ max s.particles.length s.maxParticles := by
  unfold spawnSpray
  dsimp only
  exact spawnSprayIter_wall_pow_le M s (hexToRgb s.color) (s.spawnVelocity * 20)
    hmode hcap _ (s.particles, s.seed, x, y)

theorem spawnBlob_length_le (M : JsMath) (s : State) (x y : ℚ)
    (hcap : 0 < s.maxParticles) :
    (spawnBlob M s x y).particles.length ≤ max s.particles.length s.maxParticles := by
  unfold spawnBlob
  dsimp only
  exact spawnBlobIter_pow_le M s (hexToRgb s.color) (s.spawnVelocity * 10) x y hcap _
    (s.particles, s.seed)

/-- C3 (amended).  A spawn call can exceed the configured capacity, but
only boundedly: the store never grows past
`max (current size) maxParticles` plus one spray batch
(`ceil(spawnRate / 2)`); in wall mode (where eviction is unconditional
at capacity) the spray path respects `max (current size) maxParticles`
exactly. -/
theorem spawn_capacity_bound (M : JsMath) (s : State) (x y : ℚ)
    (hcap : 0 < s.maxParticles) :
    (spawn M s x y).particles.length
      ≤ max s.particles.length s.maxParticles + (⌈s.spawnRate / 2⌉).toNat ∧
    (s.mode = "wall" → (spawn M s x y).particles.length
      ≤ max s.particles.length s.maxParticles) := by
  unfold spawn
  split_ifs with h1 h2 h3 h4 h5
  · rw [spawnExperimental_particles]
    exact ⟨le_trans (le_max_left _ _) (Nat.le_add_right _ _), fun _ => le_max_left _ _⟩
  · rw [spawnSmart_particles]
    exact ⟨le_trans (le_max_left _ _) (Nat.le_add_right _ _), fun _ => le_max_left _ _⟩
  · rw [spawnVectorDrip_particles]
    exact ⟨le_trans (le_max_left _ _) (Nat.le_add_right _ _), fun _ => le_max_left _ _⟩
  · rw [spawnTLOU_particles]
    exact ⟨le_trans (le_max_left _ _) (Nat.le_add_right _ _), fun _ => le_max_left _ _⟩
  · exact ⟨le_trans (spawnBlob_length_le M s x y hcap) (Nat.le_add_right _ _),
      fun _ => spawnBlob_length_le M s x y hcap⟩
  · refine ⟨?_, fun hw => spawnSpray_wall_length_le M s x y hw hcap⟩
    refine le_trans (spawnSpray_length_le M s x y) ?_
    have := le_max_left s.particles.length s.maxParticles
    omega

/-- The engine PRNG always returns 0 under the all-zero math library. -/
theorem jsRandom_zero (seed : ℤ) : (jsRandom zeroJsMath seed).1 = 0 := by
  unfold jsRandom zeroJsMath frac
  norm_num

/-- Under the zero PRNG, a non-wall spray iteration at (or beyond)
capacity never evicts: `random() = 0 ≤ 0.5`. -/
theorem spawnSprayIter_zero_length (s : State) (rgb : Rgb) (b : ℚ)
    (hmode : ¬ s.mode = "wall") (acc : List Particle × ℤ × ℚ × ℚ)
    (hcap : s.maxParticles ≤ acc.1.length) :
    (spawnSprayIter zeroJsMath s rgb b acc).1.length = acc.1.length + 1 := by
  obtain ⟨ps, seed, x, y⟩ := acc
  unfold spawnSprayIter
  dsimp only at hcap ⊢
  simp only [if_pos hcap, if_neg hmode, jsRandom_zero]
  rw [if_neg (by norm_num : ¬((0 : ℚ) > 1/2))]
  simp

theorem spawnSprayIter_zero_pow (s : State) (rgb : Rgb) (b : ℚ)
    (hmode : ¬ s.mode = "wall") :
    ∀ (k : ℕ) (acc : List Particle × ℤ × ℚ × ℚ), s.maxParticles ≤ acc.1.length →
      ((spawnSprayIter zeroJsMath s rgb b)^[k] acc).1.length = acc.1.length + k := by
  intro k
  induction k with
  | zero => intro acc _; simp
  | succ n ih =>
    intro acc hcap
    rw [Function.iterate_succ_apply]
    have h1 := spawnSprayIter_zero_length s rgb b hmode acc hcap
    rw [ih _ (by omega)]
    omega

/-- C3 counterexample: in floor mode at capacity, with a `Math.sin`
giving `random() = 0 ≤ 0.5`, a spawn call never evicts and pushes the
store to 6015 particles, beyond the configured capacity. -/
theorem spawn_exceeds_capacity :
    cexC3State.particles.length = cexC3State.maxParticles ∧
    cexC3State.maxParticles < (spawn zeroJsMath cexC3State 6 6).particles.length := by
  have hlen : cexC3State.particles.length = 6000 := by
    show (List.replicate 6000 dummyP).length = 6000
    rw [List.length_replicate]
  have hcap : cexC3State.maxParticles = 6000 := rfl
  constructor
  · rw [hlen, hcap]
  · unfold spawn
    rw [show cexC3State.mode = "floor" from rfl]
    rw [if_neg (by decide), if_neg (by decide), if_neg (by decide), if_neg (by decide),
      if_neg (by decide)]
    unfold spawnSpray
    dsimp only
    rw [spawnSprayIter_zero_pow cexC3State (hexToRgb cexC3State.color)
      (cexC3State.spawnVelocity * 20) (by decide) _ (cexC3State.particles, cexC3State.seed, 6, 6)
      (le_of_eq (by rw [hcap, hlen]))]
    have hcount : (⌈cexC3State.spawnRate / 2⌉).toNat = 15 := by
      with_unfolding_all decide
    rw [hcount, hcap, hlen]
    omega

/-- Witness for the amended C3 at a fresh wall-mode engine. -/
theorem spawn_capacity_bound_witness :
    (spawn zeroJsMath (mkSimulator zeroJsMath 12 12 0) 6 6).particles.length
      ≤ max (mkSimulator zeroJsMath 12 12 0).particles.length
          (mkSimulator zeroJsMath 12 12 0).maxParticles
        + (⌈(mkSimulator zeroJsMath 12 12 0).spawnRate / 2⌉).toNat ∧
    ((mkSimulator zeroJsMath 12 12 0).mode = "wall" →
      (spawn zeroJsMath (mkSimulator zeroJsMath 12 12 0) 6 6).particles.length
        ≤ max (mkSimulator zeroJsMath 12 12 0).particles.length
            (mkSimulator zeroJsMath 12 12 0).maxParticles) :=
  spawn_capacity_bound zeroJsMath (mkSimulator zeroJsMath 12 12 0) 6 6 (by decide)

/-! ### C6: the kill rule at the end of a step -/

/-- The outcome of integrating one particle: spliced out, or surviving
with mass above the epsilon and within the three checked margins (the
top margin is not checked). -/
theorem integrateParticle_shape (M : JsMath) (s : State) (dt : ℚ) (p : Particle)
    (wm : ℤ → ℕ) (seed : ℤ) :
    (∃ w2 s2, integrateParticle M s dt p wm seed = (none, w2, s2)) ∨
    (∃ q w2 s2, integrateParticle M s dt p wm seed = (some q, w2, s2) ∧
      ¬ (q.mass ≤ 2/10 ∨ (q.y > (s.height : ℚ) + 100 ∨ q.x < -100 ∨
          q.x > (s.width : ℚ) + 100))) := by
  unfold integrateParticle
  dsimp only
  split_ifs
  all_goals first
    | exact Or.inl ⟨_, _, rfl⟩
    | exact Or.inr ⟨_, _, _, rfl, by assumption⟩

theorem integrateParticle_some_bounds (M : JsMath) (s : State) (dt : ℚ) (p : Particle)
    (wm : ℤ → ℕ) (seed : ℤ) (q : Particle) (w2 : ℤ → ℕ) (s2 : ℤ)
    (h : integrateParticle M s dt p wm seed = (some q, w2, s2)) :
    2/10 < q.mass ∧ q.y ≤ (s.height : ℚ) + 100 ∧ -100 ≤ q.x ∧
      q.x ≤ (s.width : ℚ) + 100 := by
  rcases integrateParticle_shape M s dt p wm seed with ⟨w3, s3, he⟩ | ⟨q3, w3, s3, he, hk⟩
  · rw [he] at h
    exact absurd (congrArg Prod.fst h) (by simp)
  · rw [he] at h
    have hq := congrArg Prod.fst h
    simp only [Option.some.injEq] at hq
    subst hq
    push_neg at hk
    exact ⟨hk.1, hk.2.1, hk.2.2.1, hk.2.2.2⟩

/-- Every particle surviving the integration loop has mass above the
epsilon and sits within the three checked margins. -/
theorem integratePhase_bounds (M : JsMath) (s : State) (dt : ℚ) :
    ∀ (ps : List Particle) (wm : ℤ → ℕ) (seed : ℤ),
    ∀ q ∈ (integratePhase M s dt ps wm seed).1,
      2/10 < q.mass ∧ q.y ≤ (s.height : ℚ) + 100 ∧ -100 ≤ q.x ∧
        q.x ≤ (s.width : ℚ) + 100 := by
  intro ps
  induction ps with
  | nil => intro wm seed q hq; exact absurd hq (List.not_mem_nil _)
  | cons p rest ih =>
    intro wm seed q hq
    rw [integratePhase] at hq
    cases hsp : integratePhase M s dt rest wm seed with
    | mk rest' pr =>
      rw [hsp] at hq
      dsimp only at hq
      cases hip : integrateParticle M s dt p pr.1 pr.2 with
      | mk op pr2 =>
        rw [hip] at hq
        cases op with
        | none =>
          dsimp only at hq
          exact ih wm seed q (by rw [hsp]; exact hq)
        | some p' =>
          dsimp only at hq
          rcases List.mem_cons.mp hq with rfl | hq'
          · exact integrateParticle_some_bounds M s dt p pr.1 pr.2 q pr2.1 pr2.2 hip
          · exact ih wm seed q (by rw [hsp]; exact hq')

/-- C6 (amended).  In the particle-integrating modes, a particle present
after a step has mass above the 0.2 epsilon and lies within the three
checked out-of-bounds margins — bottom, left and right; a particle
arbitrarily far ABOVE the canvas is retained, the `y < -100` side of
the margin is never tested. -/
theorem step_cull_three_sides (M : JsMath) (s : State) (dt : ℚ)
    (hmode : s.mode = "wall" ∨ s.mode = "ballistic" ∨ s.mode = "floor" ∨
      s.mode = "one-click") :
    ∀ q ∈ (step M s dt).particles,
      2/10 < q.mass ∧ q.y ≤ (s.height : ℚ) + 100 ∧ -100 ≤ q.x ∧
        q.x ≤ (s.width : ℚ) + 100 := by
  unfold step
  dsimp only
  split_ifs with h1 h2 h3 h4 h5
  · rcases hmode with h | h | h | h <;> rw [h] at h1 <;> exact absurd h1 (by decide)
  · rcases hmode with h | h | h | h <;> rw [h] at h2 <;> exact absurd h2 (by decide)
  · rcases hmode with h | h | h | h <;> rw [h] at h3 <;> exact absurd h3 (by decide)
  · rcases hmode with h | h | h | h <;> rw [h] at h4 <;> exact absurd h4 (by decide)
  · intro q hq
    have hb := integratePhase_bounds M _ dt _ _ _ q hq
    exact hb
  · intro q hq
    have hb := integratePhase_bounds M _ dt _ _ _ q hq
    exact hb

set_option maxRecDepth 100000 in
/-- C6 counterexample: the kill rule reads `y > height + 100 || x < -100
|| x > width + 100` — there is no `y < -100` test — so a particle 1000
pixels above the canvas survives the step that should have culled it. -/
theorem step_misses_top_margin :
    (∀ p ∈ cexC6State.particles, p.y < -100) ∧
    (step zeroJsMath cexC6State (1/60)).particles.length = 1 ∧
    (∀ p ∈ (step zeroJsMath cexC6State (1/60)).particles, p.y < -100) :=
  ⟨by with_unfolding_all decide, by with_unfolding_all decide,
   by with_unfolding_all decide⟩

/-- Witness for the amended C6 at a fresh wall-mode engine. -/
theorem step_cull_three_sides_witness :
    (∀ q ∈ (step zeroJsMath (mkSimulator zeroJsMath 12 12 0) (1/60)).particles,
      2/10 < q.mass ∧ q.y ≤ ((mkSimulator zeroJsMath 12 12 0).height : ℚ) + 100 ∧
      -100 ≤ q.x ∧ q.x ≤ ((mkSimulator zeroJsMath 12 12 0).width : ℚ) + 100) ∧
    (mkSimulator zeroJsMath 12 12 0).mode = "wall" :=
  ⟨step_cull_three_sides zeroJsMath (mkSimulator zeroJsMath 12 12 0) (1/60)
    (Or.inl rfl), rfl⟩

/-! ### C7: the emitter lifecycle -/

/-- C7 (amended).  In the step emitter loop a grid-substrate emitter
("smart", "tlou", "experimental") is passed through untouched — not
aged, never removed — while a non-grid emitter ages by `dt` every tick
and is spliced out exactly when its new age exceeds its duration. -/
theorem emitter_lifecycle (M : JsMath) (s : State) (dt : ℚ) (e : Emitter)
    (es : List Emitter) (ps : List Particle) (seed : ℤ) :
    (isGridEmitterType e.type = true →
      (emitterPhase M s dt (e :: es) ps seed).1
        = e :: (emitterPhase M s dt es ps seed).1) ∧
    (isGridEmitterType e.type = false →
      ((e.age + dt > e.duration →
        (emitterPhase M s dt (e :: es) ps seed).1
          = (emitterPhase M s dt es ps seed).1) ∧
       (¬ e.age + dt > e.duration →
        ∃ e', (emitterPhase M s dt (e :: es) ps seed).1
            = e' :: (emitterPhase M s dt es ps seed).1 ∧
          e'.age = e.age + dt ∧ e'.type = e.type ∧ e'.duration = e.duration))) := by
  refine ⟨fun hg => ?_, fun hng => ⟨fun hexp => ?_, fun halive => ?_⟩⟩
  · rw [emitterPhase]
    cases hsp : emitterPhase M s dt es ps seed with
    | mk rest' pr =>
      dsimp only
      rw [if_pos hg]
  · rw [emitterPhase]
    cases hsp : emitterPhase M s dt es ps seed with
    | mk rest' pr =>
      dsimp only
      rw [if_neg (by simp [hng])]
      have hse : stepEmitter M s dt e pr.1 pr.2 = (none, pr.1, pr.2) := by
        unfold stepEmitter
        rw [if_pos hexp]
      rw [hse]
  · rw [emitterPhase]
    cases hsp : emitterPhase M s dt es ps seed with
    | mk rest' pr =>
      dsimp only
      rw [if_neg (by simp [hng])]
      unfold stepEmitter
      rw [if_neg halive]
      dsimp only
      exact ⟨_, rfl, rfl, rfl, rfl⟩

set_option maxRecDepth 100000 in
/-- C7 counterexample: a smart grid emitter whose age exceeds its
duration survives a full step — the step emitter loop skips grid types
before the age check, and the smart update ages it but never removes
it. -/
theorem expired_grid_emitter_kept :
    (∀ e ∈ cexC7State.emitters, e.duration < e.age) ∧
    (step zeroJsMath cexC7State (1/60)).emitters.length = 1 ∧
    (∀ e ∈ (step zeroJsMath cexC7State (1/60)).emitters, e.duration < e.age) :=
  ⟨by with_unfolding_all decide, by with_unfolding_all decide,
   by with_unfolding_all decide⟩

/-! ### C1: replay determinism against the snapshot -/

set_option maxRecDepth 100000 in
/-- C1.  `getState()` omits the noise offset, so the `init` snapshots of
two runs differing only in the non-deterministic `Math.random()` draws
are IDENTICAL — yet the identical subsequent event log (one spawn, one
fixed-step tick) drives their states apart.  No replay driven by the
recorded log can be bit-identical to an original whose noise offset came
out differently, and the spec itself demands the offset be captured. -/
theorem replay_divergence :
    getState cexC1RunA = getState cexC1RunB ∧
    (step cexMath (spawn cexMath cexC1RunA 6 6) (1/60)).dripHeads
      ≠ (step cexMath (spawn cexMath cexC1RunB 6 6) (1/60)).dripHeads :=
  ⟨rfl, by with_unfolding_all decide⟩

end FluidSim
